import Mathlib

/-!
Verification of the xtask task-dispatch engine.

Shallow embedding of `crates/xtask-common/src/commands/check.rs` (the check
command dispatcher) and of the vocabulary-composition code generators of
`crates/tracel-xtask-macros/src/lib.rs`.

Each handler of check.rs is embedded as a function returning an `Eff`:
the ordered trace of collaborator events (warnings, confirmation prompts,
log groups, external process invocations) performed before returning or
failing, together with the handler's `anyhow::Result`.
-/

namespace Xtask

/-- Target enum as generated by `generate_target_enum`
(tracel-xtask-macros/src/lib.rs, lines 12-34): declaration order is
AllPackages, Crates, Examples, Workspace; Workspace carries `#[default]`. -/
inductive Target
  | allPackages
  | crates
  | examples
  | workspace
deriving DecidableEq

/-- `Target::iter()` (strum EnumIter): variants in declaration order. -/
def Target.iterList : List Target :=
  [Target.allPackages, Target.crates, Target.examples, Target.workspace]

/-- Termination measure for the AllPackages recursion in
`run_compile` / `run_format` / `run_lint`. -/
def Target.rank : Target → Nat
  | Target.allPackages => 1
  | _ => 0

/-- `CheckCommand` enum (check.rs lines 46-61), declaration order. -/
inductive CheckCommand
  | audit
  | compile
  | format
  | lint
  | typos
  | all
deriving DecidableEq

/-- `CheckCommand::iter()` (strum EnumIter): variants in declaration order. -/
def CheckCommand.iterList : List CheckCommand :=
  [CheckCommand.audit, CheckCommand.compile, CheckCommand.format,
   CheckCommand.lint, CheckCommand.typos, CheckCommand.all]

/-- Termination measure for the `All` recursion in `handle_command`. -/
def CheckCommand.rank : CheckCommand → Nat
  | CheckCommand.all => 1
  | _ => 0

/-- `CheckCmdArgs` (check.rs lines 19-44), field order as in the source. -/
structure CheckCmdArgs where
  target : Target
  exclude : List String
  only : List String
  command : CheckCommand

/-- `WorkspaceMemberType` of utils/workspace.rs, as used by check.rs. -/
inductive WorkspaceMemberType
  | crate
  | example

/-- A workspace member; check.rs only reads `member.name`. -/
structure WorkspaceMember where
  name : String
deriving DecidableEq

/-- The calls check.rs makes into the external-process collaborators
(utils/process.rs and utils/cargo.rs, spec section 6), recorded with the exact
arguments of the call sites.  The trailing `Option String` fields model the
literal `None` arguments passed at every call site of check.rs. -/
inductive ProcInvocation
  | ensureCargoCrateIsInstalled (crate : String) (feature : Option String)
      (version : Option String) (locked : Bool)
  | runProcess (cmd : String) (args : List String) (errorMsg : String)
      (globalError : Bool)
  | runProcessForWorkspace (cmd : String) (args : List String)
      (excluded : List String) (errorMsg : String) (opt1 : Option String)
  | runProcessForPackage (cmd : String) (pkg : String) (args : List String)
      (excluded : List String) (only : List String) (errorMsg : String)
      (opt1 : Option String) (opt2 : Option String)
deriving DecidableEq

/-- Modelled from the spec: the External Process Runner contract (spec section 6)
reports a failure as an `ExecutionError` carrying the `error_message` supplied
at the call site as context.  `ensure_cargo_crate_is_installed` lives in
utils/cargo.rs which is not under src/; its failure message is modelled as
naming the crate being installed. -/
def ProcInvocation.context : ProcInvocation → String
  | ProcInvocation.ensureCargoCrateIsInstalled c _ _ _ => "Unable to install " ++ c
  | ProcInvocation.runProcess _ _ msg _ => msg
  | ProcInvocation.runProcessForWorkspace _ _ _ msg _ => msg
  | ProcInvocation.runProcessForPackage _ _ _ _ _ msg _ _ => msg

/-- One observable collaborator event of a handler run. -/
inductive Event
  | warn (msg : String)
  | prompt (msg : String)
  | openGroup (title : String)
  | closeGroup
  | run (inv : ProcInvocation)
deriving DecidableEq

/-- Modelled from the spec: the collaborators check.rs calls into — the
interactive confirmation prompt (utils/prompt.rs), the workspace member
listing (utils/workspace.rs) and the success/failure outcome of each external
process invocation (utils/process.rs). -/
structure Env where
  promptAnswer : Bool
  members : WorkspaceMemberType → List WorkspaceMember
  procFails : ProcInvocation → Bool

/-- Result of running one embedded handler: the ordered trace of collaborator
events it performed before returning or failing, and its `anyhow::Result`. -/
structure Eff (α : Type) where
  trace : List Event
  result : Except String α

def Eff.pure {α : Type} (a : α) : Eff α := ⟨[], Except.ok a⟩

/-- Sequencing with the `?` operator semantics: on error the continuation is
not run and the error propagates. -/
def Eff.bind {α β : Type} (x : Eff α) (f : α → Eff β) : Eff β :=
  match x.result with
  | Except.error e => ⟨x.trace, Except.error e⟩
  | Except.ok a => ⟨x.trace ++ (f a).trace, (f a).result⟩

instance : Monad Eff where
  pure := Eff.pure
  bind := Eff.bind

def emit (e : Event) : Eff Unit := ⟨[e], Except.ok ()⟩

/-- The `warn!` macro call sites of handle_command. -/
def warnE (msg : String) : Eff Unit := emit (Event.warn msg)

/-- `ask_once` (utils/prompt.rs, spec section 4.4): displays the prompt and
returns the user's decision. -/
def ask_once (env : Env) (msg : String) : Eff Bool :=
  ⟨[Event.prompt msg], Except.ok env.promptAnswer⟩

/-- One external process invocation: recorded in the trace; fails with its
context message when the environment says so. -/
def runProc (env : Env) (inv : ProcInvocation) : Eff Unit :=
  ⟨[Event.run inv],
    if env.procFails inv then Except.error inv.context else Except.ok ()⟩

/-- `get_workspace_members` (utils/workspace.rs): pure query of the
workspace layout. -/
def get_workspace_members (env : Env) (ty : WorkspaceMemberType) :
    List WorkspaceMember :=
  env.members ty

/-- `Iterator::try_for_each` over a list: stop at the first failure.  The body
receives the membership proof (needed for the AllPackages / All recursions). -/
def tryForEach {α : Type} : (l : List α) → ((a : α) → a ∈ l → Eff Unit) → Eff Unit
  | [], _ => Eff.pure ()
  | x :: xs, f =>
      Eff.bind (f x (List.mem_cons_self x xs))
        (fun _ => tryForEach xs (fun a h => f a (List.mem_cons_of_mem x h)))

/-- A `for` loop whose body uses the `?` operator: stop at the first failure. -/
def forEachE {α : Type} : List α → (α → Eff Unit) → Eff Unit
  | [], _ => Eff.pure ()
  | x :: xs, f => Eff.bind (f x) (fun _ => forEachE xs f)

/-- The `if answer.is_none() { answer = Some(ask_once(msg)); }` pattern of the
run_* handlers, returning the unwrapped decision. -/
def resolve_answer (env : Env) (answer : Option Bool) (msg : String) : Eff Bool :=
  match answer with
  | none => ask_once env msg
  | some b => Eff.pure b

/-- Modelled from the spec: the two warning texts live in the missing
commands/mod.rs; the spec (section 4.3) only requires the two texts to
differ. -/
def WARN_IGNORED_ONLY_ARGS : String :=
  "The only argument is ignored at workspace scope."

/-- Modelled from the spec: see `WARN_IGNORED_ONLY_ARGS`. -/
def WARN_IGNORED_EXCLUDE_AND_ONLY_ARGS : String :=
  "The exclude and only arguments are ignored at workspace scope."

/-- Modelled from the spec: the `TYPOS_VERSION` constant of versions.rs is not
under src/; its value is irrelevant to every claim. -/
def TYPOS_VERSION : String := "typos-cli-version"

/-- `run_audit` (check.rs lines 107-125). -/
def run_audit (env : Env) (answer : Option Bool) : Eff Unit := do
  let answer ← resolve_answer env answer
    "This will run the audit check with autofix mode enabled."
  if answer then
    runProc env (ProcInvocation.ensureCargoCrateIsInstalled "cargo-audit"
      (some "fix") none false)
    emit (Event.openGroup "Audit Rust Dependencies")
    runProc env (ProcInvocation.runProcess "cargo"
      ["audit", "-q", "--color", "always", "fix"]
      "Audit check execution failed" true)
    emit Event.closeGroup

/-- `run_compile` (check.rs lines 127-177).  The `AllPackages` arm recurses on
the targets kept by `Target::iter().filter(|t| *t != AllPackages && *t != Workspace)`. -/
def run_compile (env : Env) (target : Target) (excluded : List String)
    (only : List String) (answer : Option Bool) : Eff Unit :=
  if answer = some false then Eff.pure () else
  match target with
  | Target.workspace => do
      emit (Event.openGroup "Compile Workspace")
      runProc env (ProcInvocation.runProcessForWorkspace "cargo"
        ["check", "--workspace"] excluded "Workspace compilation failed" none)
      emit Event.closeGroup
  | Target.crates | Target.examples => do
      let members := match target with
        | Target.crates => get_workspace_members env WorkspaceMemberType.crate
        | Target.examples => get_workspace_members env WorkspaceMemberType.example
        | _ => []
      forEachE members (fun member => do
        emit (Event.openGroup ("Compile: " ++ member.name))
        runProc env (ProcInvocation.runProcessForPackage "cargo" member.name
          ["check", "-p", member.name] excluded only
          ("Compilation failed for " ++ member.name) none none)
        emit Event.closeGroup)
  | Target.allPackages =>
      tryForEach
        (Target.iterList.filter
          (fun t => t != Target.allPackages && t != Target.workspace))
        (fun t ht => run_compile env t excluded only none)
termination_by target.rank
decreasing_by
  simp only [List.mem_filter, Target.iterList, bne_iff_ne, Bool.and_eq_true,
    decide_eq_true_eq] at ht
  cases t <;> simp_all [Target.rank]

/-- `run_format` (check.rs lines 179-253). -/
def run_format (env : Env) (target : Target) (excluded : List String)
    (only : List String) (answer : Option Bool) : Eff Unit :=
  match target with
  | Target.workspace => do
      let answer ← resolve_answer env answer
        "This will run format with auto-fix on the workspace."
      if answer then
        emit (Event.openGroup "Format Workspace")
        runProc env (ProcInvocation.runProcessForWorkspace "cargo"
          ["fmt"] [] "Workspace compilation failed" none)
        emit Event.closeGroup
  | Target.crates | Target.examples => do
      let members := match target with
        | Target.crates => get_workspace_members env WorkspaceMemberType.crate
        | Target.examples => get_workspace_members env WorkspaceMemberType.example
        | _ => []
      let answer ← resolve_answer env answer
        ("This will run format with auto-fix on all " ++
          (if target = Target.crates then "crates" else "examples") ++
          " of the workspace.")
      if answer then
        forEachE members (fun member => do
          emit (Event.openGroup ("Format: " ++ member.name))
          runProc env (ProcInvocation.runProcessForPackage "cargo" member.name
            ["fmt", "-p", member.name] excluded only
            ("Format check execution failed for " ++ member.name) none none)
          emit Event.closeGroup)
  | Target.allPackages => do
      let answer ← resolve_answer env answer
        "This will run format check with auto-fix on all packages of the workspace."
      if answer then
        tryForEach
          (Target.iterList.filter
            (fun t => t != Target.allPackages && t != Target.workspace))
          (fun t ht => run_format env t excluded only (some answer))
termination_by target.rank
decreasing_by
  simp only [List.mem_filter, Target.iterList, bne_iff_ne, Bool.and_eq_true,
    decide_eq_true_eq] at ht
  cases t <;> simp_all [Target.rank]

/-- `run_lint` (check.rs lines 255-351). -/
def run_lint (env : Env) (target : Target) (excluded : List String)
    (only : List String) (answer : Option Bool) : Eff Unit :=
  match target with
  | Target.workspace => do
      let answer ← resolve_answer env answer
        "This will run lint with auto-fix on the workspace."
      if answer then
        emit (Event.openGroup "Lint Workspace")
        runProc env (ProcInvocation.runProcessForWorkspace "cargo"
          ["clippy", "--no-deps", "--fix", "--allow-dirty", "--allow-staged",
           "--color=always", "--", "--deny", "warnings"]
          [] "Workspace lint failed" none)
        emit Event.closeGroup
  | Target.crates | Target.examples => do
      let members := match target with
        | Target.crates => get_workspace_members env WorkspaceMemberType.crate
        | Target.examples => get_workspace_members env WorkspaceMemberType.example
        | _ => []
      let answer ← resolve_answer env answer
        ("This will run lint with auto-fix on all " ++
          (if target = Target.crates then "crates" else "examples") ++
          " of the workspace.")
      if answer then
        forEachE members (fun member => do
          emit (Event.openGroup ("Lint: " ++ member.name))
          runProc env (ProcInvocation.runProcessForPackage "cargo" member.name
            ["clippy", "--no-deps", "--fix", "--allow-dirty", "--allow-staged",
             "--color=always", "-p", member.name, "--", "--deny", "warnings"]
            excluded only
            ("Lint fix execution failed for " ++ member.name) none none)
          emit Event.closeGroup)
  | Target.allPackages => do
      let answer ← resolve_answer env answer
        "This will run lint check with auto-fix on all packages of the workspace."
      if answer then
        tryForEach
          (Target.iterList.filter
            (fun t => t != Target.allPackages && t != Target.workspace))
          (fun t ht => run_lint env t excluded only (some answer))
termination_by target.rank
decreasing_by
  simp only [List.mem_filter, Target.iterList, bne_iff_ne, Bool.and_eq_true,
    decide_eq_true_eq] at ht
  cases t <;> simp_all [Target.rank]

/-- `run_typos` (check.rs lines 353-371). -/
def run_typos (env : Env) (answer : Option Bool) : Eff Unit := do
  let answer ← resolve_answer env answer
    "This will look for typos in the source code check and auto-fix them."
  if answer then
    runProc env (ProcInvocation.ensureCargoCrateIsInstalled "typos-cli"
      none (some TYPOS_VERSION) false)
    emit (Event.openGroup "Typos")
    runProc env (ProcInvocation.runProcess "typos"
      ["--write-changes", "--color", "always"]
      "Some typos have been found and cannot be fixed." true)
    emit Event.closeGroup

/-- The warning stage of `handle_command` (check.rs lines 64-79): inside
`if answer.is_none()`, Compile warns iff target is Workspace and `only` is
non-empty; every other subcommand warns iff target is Workspace and `exclude`
or `only` is non-empty. -/
def warn_stage (args : CheckCmdArgs) (answer : Option Bool) : Eff Unit :=
  if answer.isNone then
    match args.command with
    | CheckCommand.compile =>
        if args.target == Target.workspace && !args.only.isEmpty then
          warnE WARN_IGNORED_ONLY_ARGS
        else Eff.pure ()
    | _ =>
        if args.target == Target.workspace &&
            (!args.exclude.isEmpty || !args.only.isEmpty) then
          warnE WARN_IGNORED_EXCLUDE_AND_ONLY_ARGS
        else Eff.pure ()
  else Eff.pure ()

/-- `handle_command` (check.rs lines 63-105): the warning stage, then the
dispatch on the subcommand; `All` asks once and redispatches every other
subcommand with the resolved answer. -/
def handle_command (env : Env) (args : CheckCmdArgs) (answer : Option Bool) :
    Eff Unit := do
  warn_stage args answer
  match h : args.command with
  | CheckCommand.audit => run_audit env answer
  | CheckCommand.compile => run_compile env args.target args.exclude args.only answer
  | CheckCommand.format => run_format env args.target args.exclude args.only answer
  | CheckCommand.lint => run_lint env args.target args.exclude args.only answer
  | CheckCommand.typos => run_typos env answer
  | CheckCommand.all => do
      let answer ← ask_once env
        "This will run all the checks with autofix on all members of the workspace."
      tryForEach
        (CheckCommand.iterList.filter (fun c => c != CheckCommand.all))
        (fun c hc =>
          handle_command env ⟨args.target, args.exclude, args.only, c⟩ (some answer))
termination_by args.command.rank
decreasing_by
  simp only [List.mem_filter, CheckCommand.iterList, bne_iff_ne, decide_eq_true_eq] at hc
  cases c <;> simp_all [CheckCommand.rank]

/-! ## Vocabulary composition (tracel-xtask-macros/src/lib.rs)

`generate_target_enum` merges the four base target variants with the host's
extra variants; `generate_target_tryinto` emits a `TryInto` impl mapping the
base-named variants to the base enum and any other variant to an error built
from the variant's display text.  The host's extra variants are drawn from an
arbitrary type `H` with a display function. -/

/-- The merged target enum generated by `generate_target_enum` (lines 12-34):
base variants AllPackages, Crates, Examples, Workspace first, then the
host-declared `original_variants`. -/
inductive ExtendedTarget (H : Type)
  | allPackages
  | crates
  | examples
  | workspace
  | extra (h : H)
deriving DecidableEq

/-- A base target embeds into the merged enum under its own name. -/
def Target.compose {H : Type} : Target → ExtendedTarget H
  | Target.allPackages => ExtendedTarget.allPackages
  | Target.crates => ExtendedTarget.crates
  | Target.examples => ExtendedTarget.examples
  | Target.workspace => ExtendedTarget.workspace

/-- The generated `try_into` (lines 36-54): the four base-named arms return
the base variant; the wildcard arm fails with
`"{} target is not supported."` formatted with the variant's display text. -/
def ExtendedTarget.try_into {H : Type} (display : H → String) :
    ExtendedTarget H → Except String Target
  | ExtendedTarget.allPackages => Except.ok Target.allPackages
  | ExtendedTarget.crates => Except.ok Target.crates
  | ExtendedTarget.examples => Except.ok Target.examples
  | ExtendedTarget.workspace => Except.ok Target.workspace
  | ExtendedTarget.extra h => Except.error (display h ++ " target is not supported.")

/-- The base `CheckSubCommand` vocabulary of `get_subcommand_variant_map`
(lines 454-469): All, Audit, Format, Lint, Typos in declaration order. -/
inductive CheckSubCommand
  | all
  | audit
  | format
  | lint
  | typos
deriving DecidableEq

/-- The merged subcommand enum generated by `generate_subcommand_enum`
(lines 562-594) for base `CheckSubCommand`: base variants then host extras. -/
inductive ExtendedCheckSubCommand (H : Type)
  | all
  | audit
  | format
  | lint
  | typos
  | extra (h : H)
deriving DecidableEq

/-- A base subcommand embeds into the merged enum under its own name. -/
def CheckSubCommand.compose {H : Type} : CheckSubCommand → ExtendedCheckSubCommand H
  | CheckSubCommand.all => ExtendedCheckSubCommand.all
  | CheckSubCommand.audit => ExtendedCheckSubCommand.audit
  | CheckSubCommand.format => ExtendedCheckSubCommand.format
  | CheckSubCommand.lint => ExtendedCheckSubCommand.lint
  | CheckSubCommand.typos => ExtendedCheckSubCommand.typos

/-- The `try_into` generated by `generate_subcomand_tryinto` (lines 596-627):
one arm per base variant mapping it to the base enum, and a wildcard arm
failing with the same `"{} target is not supported."` message. -/
def ExtendedCheckSubCommand.try_into {H : Type} (display : H → String) :
    ExtendedCheckSubCommand H → Except String CheckSubCommand
  | ExtendedCheckSubCommand.all => Except.ok CheckSubCommand.all
  | ExtendedCheckSubCommand.audit => Except.ok CheckSubCommand.audit
  | ExtendedCheckSubCommand.format => Except.ok CheckSubCommand.format
  | ExtendedCheckSubCommand.lint => Except.ok CheckSubCommand.lint
  | ExtendedCheckSubCommand.typos => Except.ok CheckSubCommand.typos
  | ExtendedCheckSubCommand.extra h =>
      Except.error (display h ++ " target is not supported.")

/-! ## Trace projections -/

/-- Projection to a process invocation, if the event is one. -/
def Event.runInv : Event → Option ProcInvocation
  | Event.run i => some i
  | _ => none

/-- The external process invocations of a trace, in order. -/
def runEvents (tr : List Event) : List ProcInvocation :=
  tr.filterMap Event.runInv

def Event.isPrompt : Event → Bool
  | Event.prompt _ => true
  | _ => false

/-- How many confirmation prompts a trace contains. -/
def promptCount (tr : List Event) : Nat :=
  tr.countP Event.isPrompt

/-- The warning messages of a trace, in order. -/
def warnMsgs (tr : List Event) : List String :=
  tr.filterMap (fun e =>
    match e with
    | Event.warn m => some m
    | _ => none)

/-- Log-group balance: thread the open-group depth through the trace;
`none` means a close without a matching open. -/
def groupDelta : List Event → Nat → Option Nat
  | [], d => some d
  | Event.openGroup _ :: tr, d => groupDelta tr (d + 1)
  | Event.closeGroup :: tr, d =>
      match d with
      | 0 => none
      | Nat.succ d => groupDelta tr d
  | _ :: tr, d => groupDelta tr d

def Event.isRun : Event → Bool
  | Event.run _ => true
  | _ => false

def Event.isWarn : Event → Bool
  | Event.warn _ => true
  | _ => false

def Event.isOpen : Event → Bool
  | Event.openGroup _ => true
  | _ => false

def Event.isClose : Event → Bool
  | Event.closeGroup => true
  | _ => false

/-- Number of events of kind `p` an effect performed. -/
def countE (p : Event → Bool) {α : Type} (x : Eff α) : Nat :=
  x.trace.countP p

/-- The fail-fast contract of an effect under an environment: on success every
performed invocation succeeded; on failure the performed invocations are a
sequence of successes followed by exactly one failing invocation, whose
context message is the reported error. -/
def FailFast (env : Env) {α : Type} (x : Eff α) : Prop :=
  match x.result with
  | Except.ok _ => ∀ i ∈ runEvents x.trace, env.procFails i = false
  | Except.error e =>
      ∃ pre inv, runEvents x.trace = pre ++ [inv] ∧
        (∀ i ∈ pre, env.procFails i = false) ∧
        env.procFails inv = true ∧ e = inv.context

/-- Group balance of an effect: on success the open-group depth returns to its
starting value with no unmatched close; on failure at most the group opened
around the failing step stays open. -/
def GroupSafe {α : Type} (x : Eff α) : Prop :=
  ∀ d : Nat,
    match x.result with
    | Except.ok _ => groupDelta x.trace d = some d
    | Except.error _ =>
        groupDelta x.trace d = some d ∨ groupDelta x.trace d = some (d + 1)

/-- A predicate on events that ignores process runs and log groups (so it can
only count warnings or prompts). -/
def NonUi (p : Event → Bool) : Prop :=
  (∀ i, p (Event.run i) = false) ∧ (∀ t, p (Event.openGroup t) = false) ∧
    p Event.closeGroup = false

/-! ## Concrete environments used by witnesses and counterexamples -/

/-- Every process succeeds, the user answers yes, two crates and one example. -/
def envOk : Env :=
  ⟨true,
   fun ty =>
     match ty with
     | WorkspaceMemberType.crate => [⟨"alpha"⟩, ⟨"beta"⟩]
     | WorkspaceMemberType.example => [⟨"demo"⟩],
   fun _ => false⟩

/-- Same layout but the user answers no. -/
def envNo : Env :=
  ⟨false,
   fun ty =>
     match ty with
     | WorkspaceMemberType.crate => [⟨"alpha"⟩, ⟨"beta"⟩]
     | WorkspaceMemberType.example => [⟨"demo"⟩],
   fun _ => false⟩

/-- The `cargo audit` process invocation fails, everything else succeeds. -/
def envAuditFails : Env :=
  ⟨true,
   fun _ => [],
   fun inv =>
     match inv with
     | ProcInvocation.runProcess "cargo" _ _ _ => true
     | _ => false⟩

/-! ## Basic lemmas about the effect monad -/

instance {ε α : Type} [DecidableEq ε] [DecidableEq α] : DecidableEq (Except ε α) :=
  fun x y =>
    match x, y with
    | Except.ok a, Except.ok b => decidable_of_iff (a = b) (by simp)
    | Except.ok _, Except.error _ => isFalse (by simp)
    | Except.error _, Except.ok _ => isFalse (by simp)
    | Except.error e, Except.error f => decidable_of_iff (e = f) (by simp)

@[simp] theorem Eff.bind_eq {α β : Type} (x : Eff α) (f : α → Eff β) :
    x >>= f = Eff.bind x f := rfl

@[simp] theorem Eff.pure_eq {α : Type} (a : α) :
    (Pure.pure a : Eff α) = Eff.pure a := rfl

@[simp] theorem Eff.pure_trace {α : Type} (a : α) :
    (Eff.pure a).trace = [] := rfl

@[simp] theorem Eff.pure_result {α : Type} (a : α) :
    (Eff.pure a).result = Except.ok a := rfl

theorem Eff.bind_mk_ok {α β : Type} (tr : List Event) (a : α) (f : α → Eff β) :
    Eff.bind ⟨tr, Except.ok a⟩ f = ⟨tr ++ (f a).trace, (f a).result⟩ := rfl

theorem Eff.bind_mk_error {α β : Type} (tr : List Event) (e : String)
    (f : α → Eff β) : Eff.bind ⟨tr, Except.error e⟩ f = ⟨tr, Except.error e⟩ := rfl

@[simp] theorem Eff.bind_pure_left {α β : Type} (a : α) (f : α → Eff β) :
    Eff.bind (Eff.pure a) f = f a := by
  show Eff.bind ⟨[], Except.ok a⟩ f = f a
  rw [Eff.bind_mk_ok]
  simp

@[simp] theorem Eff.bind_pure_right (x : Eff Unit) :
    Eff.bind x (fun _ => Eff.pure ()) = x := by
  match x with
  | ⟨tr, Except.ok ()⟩ => rw [Eff.bind_mk_ok]; simp
  | ⟨tr, Except.error e⟩ => rw [Eff.bind_mk_error]

theorem Eff.bind_assoc {α β γ : Type} (x : Eff α) (f : α → Eff β)
    (g : β → Eff γ) :
    Eff.bind (Eff.bind x f) g = Eff.bind x (fun a => Eff.bind (f a) g) := by
  obtain ⟨tr, r⟩ := x
  cases r with
  | error e => simp [Eff.bind]
  | ok a =>
      rcases hfa : f a with ⟨tr2, r2⟩
      cases r2 with
      | error e => simp [Eff.bind, hfa]
      | ok b => simp [Eff.bind, hfa, List.append_assoc]

/-- Case split on the first component of a bind. -/
theorem Eff.bind_trace {α β : Type} (x : Eff α) (f : α → Eff β) :
    (Eff.bind x f).trace =
      match x.result with
      | Except.ok a => x.trace ++ (f a).trace
      | Except.error _ => x.trace := by
  unfold Eff.bind
  match h : x.result with
  | Except.ok a => simp [h]
  | Except.error e => simp [h]

theorem Eff.bind_result {α β : Type} (x : Eff α) (f : α → Eff β) :
    (Eff.bind x f).result =
      match x.result with
      | Except.ok a => (f a).result
      | Except.error e => Except.error e := by
  unfold Eff.bind
  match h : x.result with
  | Except.ok a => simp [h]
  | Except.error e => simp [h]

/-! ## Counting events of a kind -/

theorem countE_bind (p : Event → Bool) {α β : Type} (x : Eff α) (f : α → Eff β) :
    countE p (Eff.bind x f) =
      countE p x +
        match x.result with
        | Except.ok a => countE p (f a)
        | Except.error _ => 0 := by
  unfold countE Eff.bind
  match h : x.result with
  | Except.ok a => simp [h, List.countP_append]
  | Except.error e => simp [h]

theorem countE_bind_zero {p : Event → Bool} {α β : Type} {x : Eff α}
    {f : α → Eff β} (hx : countE p x = 0) (hf : ∀ a, countE p (f a) = 0) :
    countE p (Eff.bind x f) = 0 := by
  rw [countE_bind]
  match h : x.result with
  | Except.ok a => simp [hx, hf a]
  | Except.error e => simp [hx]

theorem countE_pure (p : Event → Bool) {α : Type} (a : α) :
    countE p (Eff.pure a) = 0 := rfl

theorem countE_tryForEach_zero {p : Event → Bool} {α : Type} :
    ∀ (l : List α) (f : (a : α) → a ∈ l → Eff Unit),
      (∀ a h, countE p (f a h) = 0) → countE p (tryForEach l f) = 0
  | [], _, _ => rfl
  | x :: xs, f, hf => by
      unfold tryForEach
      exact countE_bind_zero (hf x _)
        (fun _ => countE_tryForEach_zero xs _ (fun a h => hf a _))

theorem countE_forEachE_zero {p : Event → Bool} {α : Type} :
    ∀ (l : List α) (f : α → Eff Unit),
      (∀ a, countE p (f a) = 0) → countE p (forEachE l f) = 0
  | [], _, _ => rfl
  | x :: xs, f, hf => by
      unfold forEachE
      exact countE_bind_zero (hf x) (fun _ => countE_forEachE_zero xs f hf)

theorem promptCount_eq_countE {α : Type} (x : Eff α) :
    promptCount x.trace = countE Event.isPrompt x := rfl

/-! ## Fail-fast invariant (spec: Execute aborts the remaining sequence at the
first process failure and surfaces that error with its context attached) -/

theorem runEvents_append (l1 l2 : List Event) :
    runEvents (l1 ++ l2) = runEvents l1 ++ runEvents l2 :=
  List.filterMap_append l1 l2 Event.runInv

theorem FailFast_pure (env : Env) {α : Type} (a : α) :
    FailFast env (Eff.pure a) := by
  simp [FailFast, Eff.pure, runEvents]

theorem FailFast_emit (env : Env) {e : Event} (h : e.runInv = none) :
    FailFast env (emit e) := by
  simp [FailFast, emit, runEvents, h]

theorem FailFast_warnE (env : Env) (m : String) : FailFast env (warnE m) :=
  FailFast_emit env rfl

theorem FailFast_ask_once (env : Env) (m : String) :
    FailFast env (ask_once env m) := by
  simp [FailFast, ask_once, runEvents, Event.runInv]

theorem FailFast_runProc (env : Env) (i : ProcInvocation) :
    FailFast env (runProc env i) := by
  unfold FailFast runProc
  by_cases h : env.procFails i
  · simp only [h, if_true]
    exact ⟨[], i, by simp [runEvents, Event.runInv], by simp, h, rfl⟩
  · simp only [h, if_false]
    simp [runEvents, Event.runInv]
    simpa using h

theorem FailFast_bind (env : Env) {α β : Type} {x : Eff α} {f : α → Eff β}
    (hx : FailFast env x) (hf : ∀ a, FailFast env (f a)) :
    FailFast env (Eff.bind x f) := by
  unfold FailFast Eff.bind at *
  match h : x.result with
  | Except.error e =>
      rw [h] at hx
      simp only [h]
      exact hx
  | Except.ok a =>
      rw [h] at hx
      simp only [h, runEvents_append]
      match h2 : (f a).result with
      | Except.ok b =>
          have hfa := hf a
          rw [h2] at hfa
          intro i hi
          rcases List.mem_append.mp hi with hi | hi
          · exact hx i hi
          · exact hfa i hi
      | Except.error e =>
          have hfa := hf a
          rw [h2] at hfa
          obtain ⟨pre, inv, hsplit, hpre, hinv, hctx⟩ := hfa
          exact ⟨runEvents x.trace ++ pre, inv, by rw [hsplit, List.append_assoc],
            by intro i hi; rcases List.mem_append.mp hi with hi | hi;
               exacts [hx i hi, hpre i hi],
            hinv, hctx⟩

theorem FailFast_tryForEach (env : Env) {α : Type} :
    ∀ (l : List α) (f : (a : α) → a ∈ l → Eff Unit),
      (∀ a h, FailFast env (f a h)) → FailFast env (tryForEach l f)
  | [], _, _ => FailFast_pure env ()
  | x :: xs, f, hf =>
      FailFast_bind env (hf x _)
        (fun _ => FailFast_tryForEach env xs _ (fun a h => hf a _))

theorem FailFast_forEachE (env : Env) {α : Type} :
    ∀ (l : List α) (f : α → Eff Unit),
      (∀ a, FailFast env (f a)) → FailFast env (forEachE l f)
  | [], _, _ => FailFast_pure env ()
  | x :: xs, f, hf =>
      FailFast_bind env (hf x) (fun _ => FailFast_forEachE env xs f hf)

theorem FailFast_resolve_answer (env : Env) (answer : Option Bool) (m : String) :
    FailFast env (resolve_answer env answer m) := by
  cases answer with
  | none => exact FailFast_ask_once env m
  | some b => exact FailFast_pure env b

/-! ## Group-balance invariant -/

theorem groupDelta_append (l1 l2 : List Event) (d : Nat) :
    groupDelta (l1 ++ l2) d =
      match groupDelta l1 d with
      | none => none
      | some d2 => groupDelta l2 d2 := by
  induction l1 generalizing d with
  | nil => simp [groupDelta]
  | cons e tr ih =>
      cases e with
      | openGroup t => simp [groupDelta, ih]
      | closeGroup =>
          cases d with
          | zero => simp [groupDelta]
          | succ d => simp [groupDelta, ih]
      | warn m => simp [groupDelta, ih]
      | prompt m => simp [groupDelta, ih]
      | run i => simp [groupDelta, ih]

theorem GroupSafe_pure {α : Type} (a : α) : GroupSafe (Eff.pure a) := by
  intro d
  simp [Eff.pure, groupDelta]

theorem GroupSafe_emit {e : Event} (h : e.isOpen = false ∧ e.isClose = false) :
    GroupSafe (emit e) := by
  intro d
  cases e <;> simp_all [emit, groupDelta, Event.isOpen, Event.isClose]

theorem GroupSafe_warnE (m : String) : GroupSafe (warnE m) :=
  GroupSafe_emit (by constructor <;> rfl)

theorem GroupSafe_ask_once (env : Env) (m : String) :
    GroupSafe (ask_once env m) := by
  intro d
  simp [ask_once, groupDelta]

theorem GroupSafe_runProc (env : Env) (i : ProcInvocation) :
    GroupSafe (runProc env i) := by
  intro d
  unfold runProc
  by_cases h : env.procFails i
  · simp [h, groupDelta]
  · simp [h, groupDelta]

/-- The `group! ... run_process ... endgroup!` bracket shape used at every
Execute step of check.rs. -/
theorem GroupSafe_groupUnit (env : Env) (t : String) (i : ProcInvocation) :
    GroupSafe (Eff.bind (emit (Event.openGroup t))
      (fun _ => Eff.bind (runProc env i) (fun _ => emit Event.closeGroup))) := by
  intro d
  by_cases h : env.procFails i
  · simp [Eff.bind, emit, runProc, h, groupDelta]
  · simp [Eff.bind, emit, runProc, h, groupDelta]

theorem GroupSafe_bind {α β : Type} {x : Eff α} {f : α → Eff β}
    (hx : GroupSafe x) (hf : ∀ a, GroupSafe (f a)) :
    GroupSafe (Eff.bind x f) := by
  intro d
  unfold GroupSafe Eff.bind at *
  match h : x.result with
  | Except.error e =>
      have := hx d
      rw [h] at this
      simp only [h]
      exact this
  | Except.ok a =>
      have hxd := hx d
      rw [h] at hxd
      simp only [h, groupDelta_append, hxd]
      match h2 : (f a).result with
      | Except.ok b =>
          have := hf a d
          rw [h2] at this
          exact this
      | Except.error e =>
          have := hf a d
          rw [h2] at this
          exact this

theorem GroupSafe_tryForEach {α : Type} :
    ∀ (l : List α) (f : (a : α) → a ∈ l → Eff Unit),
      (∀ a h, GroupSafe (f a h)) → GroupSafe (tryForEach l f)
  | [], _, _ => GroupSafe_pure ()
  | x :: xs, f, hf =>
      GroupSafe_bind (hf x _)
        (fun _ => GroupSafe_tryForEach xs _ (fun a h => hf a _))

theorem GroupSafe_forEachE {α : Type} :
    ∀ (l : List α) (f : α → Eff Unit),
      (∀ a, GroupSafe (f a)) → GroupSafe (forEachE l f)
  | [], _, _ => GroupSafe_pure ()
  | x :: xs, f, hf =>
      GroupSafe_bind (hf x) (fun _ => GroupSafe_forEachE xs f hf)

theorem GroupSafe_resolve_answer (env : Env) (answer : Option Bool) (m : String) :
    GroupSafe (resolve_answer env answer m) := by
  cases answer with
  | none => exact GroupSafe_ask_once env m
  | some b => exact GroupSafe_pure b

/-! ## Per-handler invariant lemmas -/

theorem NonUi_isPrompt : NonUi Event.isPrompt :=
  ⟨fun _ => rfl, fun _ => rfl, rfl⟩

theorem NonUi_isWarn : NonUi Event.isWarn :=
  ⟨fun _ => rfl, fun _ => rfl, rfl⟩

theorem countE_emit {p : Event → Bool} {e : Event} (h : p e = false) :
    countE p (emit e) = 0 := by
  simp [countE, emit, List.countP_cons, h]

theorem countE_runProc {p : Event → Bool} (env : Env) (i : ProcInvocation)
    (h : p (Event.run i) = false) : countE p (runProc env i) = 0 := by
  simp [countE, runProc, List.countP_cons, h]

theorem countE_ask_once {p : Event → Bool} (env : Env) (m : String)
    (h : p (Event.prompt m) = false) : countE p (ask_once env m) = 0 := by
  simp [countE, ask_once, List.countP_cons, h]

theorem countE_warnE {p : Event → Bool} (m : String)
    (h : p (Event.warn m) = false) : countE p (warnE m) = 0 := by
  simp [countE, warnE, emit, List.countP_cons, h]

theorem countE_resolve_answer_some {p : Event → Bool} (env : Env) (b : Bool)
    (m : String) : countE p (resolve_answer env (some b) m) = 0 := rfl

theorem countE_resolve_answer {p : Event → Bool} (env : Env)
    (answer : Option Bool) (m : String)
    (h : ∀ m2, p (Event.prompt m2) = false) :
    countE p (resolve_answer env answer m) = 0 := by
  cases answer with
  | none => exact countE_ask_once env m (h m)
  | some b => rfl

theorem ne_of_mem_targetFilter {t : Target}
    (h : t ∈ Target.iterList.filter
      (fun t => t != Target.allPackages && t != Target.workspace)) :
    t ≠ Target.allPackages ∧ t ≠ Target.workspace := by
  simp only [List.mem_filter, bne_iff_ne, ne_eq, Bool.and_eq_true,
    decide_eq_true_eq] at h
  exact h.2

theorem ne_of_mem_cmdFilter {c : CheckCommand}
    (h : c ∈ CheckCommand.iterList.filter (fun c => c != CheckCommand.all)) :
    c ≠ CheckCommand.all := by
  simp only [List.mem_filter, bne_iff_ne, ne_eq, decide_eq_true_eq] at h
  exact h.2

theorem warn_stage_result (args : CheckCmdArgs) (answer : Option Bool) :
    (warn_stage args answer).result = Except.ok () := by
  unfold warn_stage
  split
  · split <;> split <;> rfl
  · rfl

theorem FailFast_warn_stage (env : Env) (args : CheckCmdArgs)
    (answer : Option Bool) : FailFast env (warn_stage args answer) := by
  unfold warn_stage
  split
  · split <;> split <;>
      first
        | exact FailFast_warnE env _
        | exact FailFast_pure env ()
  · exact FailFast_pure env ()

theorem GroupSafe_warn_stage (args : CheckCmdArgs) (answer : Option Bool) :
    GroupSafe (warn_stage args answer) := by
  unfold warn_stage
  split
  · split <;> split <;>
      first
        | exact GroupSafe_warnE _
        | exact GroupSafe_pure ()
  · exact GroupSafe_pure ()

theorem countE_warn_stage {p : Event → Bool} (args : CheckCmdArgs)
    (answer : Option Bool) (h : ∀ m, p (Event.warn m) = false) :
    countE p (warn_stage args answer) = 0 := by
  unfold warn_stage
  split
  · split <;> split <;>
      first
        | exact countE_warnE _ (h _)
        | exact countE_pure p ()
  · exact countE_pure p ()

theorem warn_stage_some (args : CheckCmdArgs) (b : Bool) :
    warn_stage args (some b) = Eff.pure () := rfl

theorem run_audit_FailFast (env : Env) (answer : Option Bool) :
    FailFast env (run_audit env answer) := by
  unfold run_audit
  simp only [Eff.bind_eq, Eff.pure_eq]
  refine FailFast_bind env (FailFast_resolve_answer env answer _) (fun a => ?_)
  cases a
  · exact FailFast_pure env ()
  · refine FailFast_bind env (FailFast_runProc env _) (fun _ => ?_)
    refine FailFast_bind env (FailFast_emit env rfl) (fun _ => ?_)
    refine FailFast_bind env (FailFast_runProc env _) (fun _ => ?_)
    exact FailFast_emit env rfl

theorem run_typos_FailFast (env : Env) (answer : Option Bool) :
    FailFast env (run_typos env answer) := by
  unfold run_typos
  simp only [Eff.bind_eq, Eff.pure_eq]
  refine FailFast_bind env (FailFast_resolve_answer env answer _) (fun a => ?_)
  cases a
  · exact FailFast_pure env ()
  · refine FailFast_bind env (FailFast_runProc env _) (fun _ => ?_)
    refine FailFast_bind env (FailFast_emit env rfl) (fun _ => ?_)
    refine FailFast_bind env (FailFast_runProc env _) (fun _ => ?_)
    exact FailFast_emit env rfl

theorem run_audit_GroupSafe (env : Env) (answer : Option Bool) :
    GroupSafe (run_audit env answer) := by
  unfold run_audit
  simp only [Eff.bind_eq, Eff.pure_eq]
  refine GroupSafe_bind (GroupSafe_resolve_answer env answer _) (fun a => ?_)
  cases a
  · exact GroupSafe_pure ()
  · exact GroupSafe_bind (GroupSafe_runProc env _)
      (fun _ => GroupSafe_groupUnit env _ _)

theorem run_typos_GroupSafe (env : Env) (answer : Option Bool) :
    GroupSafe (run_typos env answer) := by
  unfold run_typos
  simp only [Eff.bind_eq, Eff.pure_eq]
  refine GroupSafe_bind (GroupSafe_resolve_answer env answer _) (fun a => ?_)
  cases a
  · exact GroupSafe_pure ()
  · exact GroupSafe_bind (GroupSafe_runProc env _)
      (fun _ => GroupSafe_groupUnit env _ _)

theorem run_audit_countE_some {p : Event → Bool} (hp : NonUi p) (env : Env)
    (b : Bool) : countE p (run_audit env (some b)) = 0 := by
  unfold run_audit
  simp only [Eff.bind_eq, Eff.pure_eq]
  refine countE_bind_zero (countE_resolve_answer_some env b _) (fun a => ?_)
  cases a
  · exact countE_pure p ()
  · refine countE_bind_zero (countE_runProc env _ (hp.1 _)) (fun _ => ?_)
    refine countE_bind_zero (countE_emit (hp.2.1 _)) (fun _ => ?_)
    refine countE_bind_zero (countE_runProc env _ (hp.1 _)) (fun _ => ?_)
    exact countE_emit hp.2.2

theorem run_audit_countE {p : Event → Bool} (hp : NonUi p)
    (hprompt : ∀ m, p (Event.prompt m) = false) (env : Env)
    (answer : Option Bool) : countE p (run_audit env answer) = 0 := by
  unfold run_audit
  simp only [Eff.bind_eq, Eff.pure_eq]
  refine countE_bind_zero (countE_resolve_answer env answer _ hprompt) (fun a => ?_)
  cases a
  · exact countE_pure p ()
  · refine countE_bind_zero (countE_runProc env _ (hp.1 _)) (fun _ => ?_)
    refine countE_bind_zero (countE_emit (hp.2.1 _)) (fun _ => ?_)
    refine countE_bind_zero (countE_runProc env _ (hp.1 _)) (fun _ => ?_)
    exact countE_emit hp.2.2

theorem run_typos_countE_some {p : Event → Bool} (hp : NonUi p) (env : Env)
    (b : Bool) : countE p (run_typos env (some b)) = 0 := by
  unfold run_typos
  simp only [Eff.bind_eq, Eff.pure_eq]
  refine countE_bind_zero (countE_resolve_answer_some env b _) (fun a => ?_)
  cases a
  · exact countE_pure p ()
  · refine countE_bind_zero (countE_runProc env _ (hp.1 _)) (fun _ => ?_)
    refine countE_bind_zero (countE_emit (hp.2.1 _)) (fun _ => ?_)
    refine countE_bind_zero (countE_runProc env _ (hp.1 _)) (fun _ => ?_)
    exact countE_emit hp.2.2

theorem run_typos_countE {p : Event → Bool} (hp : NonUi p)
    (hprompt : ∀ m, p (Event.prompt m) = false) (env : Env)
    (answer : Option Bool) : countE p (run_typos env answer) = 0 := by
  unfold run_typos
  simp only [Eff.bind_eq, Eff.pure_eq]
  refine countE_bind_zero (countE_resolve_answer env answer _ hprompt) (fun a => ?_)
  cases a
  · exact countE_pure p ()
  · refine countE_bind_zero (countE_runProc env _ (hp.1 _)) (fun _ => ?_)
    refine countE_bind_zero (countE_emit (hp.2.1 _)) (fun _ => ?_)
    refine countE_bind_zero (countE_runProc env _ (hp.1 _)) (fun _ => ?_)
    exact countE_emit hp.2.2

theorem run_compile_FailFast_base (env : Env) (e o : List String)
    (answer : Option Bool) {t : Target} (ht : t ≠ Target.allPackages) :
    FailFast env (run_compile env t e o answer) := by
  cases t with
  | allPackages => exact absurd rfl ht
  | workspace =>
      simp only [run_compile, Eff.bind_eq, Eff.pure_eq]
      split
      · exact FailFast_pure env ()
      · refine FailFast_bind env (FailFast_emit env rfl) (fun _ => ?_)
        refine FailFast_bind env (FailFast_runProc env _) (fun _ => ?_)
        exact FailFast_emit env rfl
  | crates =>
      simp only [run_compile, Eff.bind_eq, Eff.pure_eq]
      split
      · exact FailFast_pure env ()
      · refine FailFast_forEachE env _ _ (fun m => ?_)
        refine FailFast_bind env (FailFast_emit env rfl) (fun _ => ?_)
        refine FailFast_bind env (FailFast_runProc env _) (fun _ => ?_)
        exact FailFast_emit env rfl
  | examples =>
      simp only [run_compile, Eff.bind_eq, Eff.pure_eq]
      split
      · exact FailFast_pure env ()
      · refine FailFast_forEachE env _ _ (fun m => ?_)
        refine FailFast_bind env (FailFast_emit env rfl) (fun _ => ?_)
        refine FailFast_bind env (FailFast_runProc env _) (fun _ => ?_)
        exact FailFast_emit env rfl

theorem run_compile_FailFast (env : Env) (t : Target) (e o : List String)
    (answer : Option Bool) : FailFast env (run_compile env t e o answer) := by
  cases t with
  | allPackages =>
      simp only [run_compile, Eff.bind_eq, Eff.pure_eq]
      split
      · exact FailFast_pure env ()
      · refine FailFast_tryForEach env _ _ (fun t2 h => ?_)
        exact run_compile_FailFast_base env e o none (ne_of_mem_targetFilter h).1
  | workspace => exact run_compile_FailFast_base env e o answer (by decide)
  | crates => exact run_compile_FailFast_base env e o answer (by decide)
  | examples => exact run_compile_FailFast_base env e o answer (by decide)

theorem run_compile_GroupSafe_base (env : Env) (e o : List String)
    (answer : Option Bool) {t : Target} (ht : t ≠ Target.allPackages) :
    GroupSafe (run_compile env t e o answer) := by
  cases t with
  | allPackages => exact absurd rfl ht
  | workspace =>
      simp only [run_compile, Eff.bind_eq, Eff.pure_eq]
      split
      · exact GroupSafe_pure ()
      · exact GroupSafe_groupUnit env _ _
  | crates =>
      simp only [run_compile, Eff.bind_eq, Eff.pure_eq]
      split
      · exact GroupSafe_pure ()
      · exact GroupSafe_forEachE _ _ (fun m => GroupSafe_groupUnit env _ _)
  | examples =>
      simp only [run_compile, Eff.bind_eq, Eff.pure_eq]
      split
      · exact GroupSafe_pure ()
      · exact GroupSafe_forEachE _ _ (fun m => GroupSafe_groupUnit env _ _)

theorem run_compile_GroupSafe (env : Env) (t : Target) (e o : List String)
    (answer : Option Bool) : GroupSafe (run_compile env t e o answer) := by
  cases t with
  | allPackages =>
      simp only [run_compile, Eff.bind_eq, Eff.pure_eq]
      split
      · exact GroupSafe_pure ()
      · refine GroupSafe_tryForEach _ _ (fun t2 h => ?_)
        exact run_compile_GroupSafe_base env e o none (ne_of_mem_targetFilter h).1
  | workspace => exact run_compile_GroupSafe_base env e o answer (by decide)
  | crates => exact run_compile_GroupSafe_base env e o answer (by decide)
  | examples => exact run_compile_GroupSafe_base env e o answer (by decide)

theorem run_compile_countE_base {p : Event → Bool} (hp : NonUi p) (env : Env)
    (e o : List String) (answer : Option Bool) {t : Target}
    (ht : t ≠ Target.allPackages) : countE p (run_compile env t e o answer) = 0 := by
  cases t with
  | allPackages => exact absurd rfl ht
  | workspace =>
      simp only [run_compile, Eff.bind_eq, Eff.pure_eq]
      split
      · exact countE_pure p ()
      · refine countE_bind_zero (countE_emit (hp.2.1 _)) (fun _ => ?_)
        refine countE_bind_zero (countE_runProc env _ (hp.1 _)) (fun _ => ?_)
        exact countE_emit hp.2.2
  | crates =>
      simp only [run_compile, Eff.bind_eq, Eff.pure_eq]
      split
      · exact countE_pure p ()
      · refine countE_forEachE_zero _ _ (fun m => ?_)
        refine countE_bind_zero (countE_emit (hp.2.1 _)) (fun _ => ?_)
        refine countE_bind_zero (countE_runProc env _ (hp.1 _)) (fun _ => ?_)
        exact countE_emit hp.2.2
  | examples =>
      simp only [run_compile, Eff.bind_eq, Eff.pure_eq]
      split
      · exact countE_pure p ()
      · refine countE_forEachE_zero _ _ (fun m => ?_)
        refine countE_bind_zero (countE_emit (hp.2.1 _)) (fun _ => ?_)
        refine countE_bind_zero (countE_runProc env _ (hp.1 _)) (fun _ => ?_)
        exact countE_emit hp.2.2

/-- run_compile performs no prompts and no warnings, for any target and any
incoming answer. -/
theorem run_compile_countE {p : Event → Bool} (hp : NonUi p) (env : Env)
    (t : Target) (e o : List String) (answer : Option Bool) :
    countE p (run_compile env t e o answer) = 0 := by
  cases t with
  | allPackages =>
      simp only [run_compile, Eff.bind_eq, Eff.pure_eq]
      split
      · exact countE_pure p ()
      · refine countE_tryForEach_zero _ _ (fun t2 h => ?_)
        exact run_compile_countE_base hp env e o none (ne_of_mem_targetFilter h).1
  | workspace => exact run_compile_countE_base hp env e o answer (by decide)
  | crates => exact run_compile_countE_base hp env e o answer (by decide)
  | examples => exact run_compile_countE_base hp env e o answer (by decide)

theorem run_format_FailFast_base (env : Env) (e o : List String)
    (answer : Option Bool) {t : Target} (ht : t ≠ Target.allPackages) :
    FailFast env (run_format env t e o answer) := by
  cases t with
  | allPackages => exact absurd rfl ht
  | workspace =>
      simp only [run_format, Eff.bind_eq, Eff.pure_eq]
      refine FailFast_bind env (FailFast_resolve_answer env answer _) (fun a => ?_)
      cases a
      · exact FailFast_pure env ()
      · rw [if_pos rfl]
        refine FailFast_bind env (FailFast_emit env rfl) (fun _ => ?_)
        refine FailFast_bind env (FailFast_runProc env _) (fun _ => ?_)
        exact FailFast_emit env rfl
  | crates =>
      simp only [run_format, Eff.bind_eq, Eff.pure_eq]
      refine FailFast_bind env (FailFast_resolve_answer env answer _) (fun a => ?_)
      cases a
      · exact FailFast_pure env ()
      · refine FailFast_forEachE env _ _ (fun m => ?_)
        refine FailFast_bind env (FailFast_emit env rfl) (fun _ => ?_)
        refine FailFast_bind env (FailFast_runProc env _) (fun _ => ?_)
        exact FailFast_emit env rfl
  | examples =>
      simp only [run_format, Eff.bind_eq, Eff.pure_eq]
      refine FailFast_bind env (FailFast_resolve_answer env answer _) (fun a => ?_)
      cases a
      · exact FailFast_pure env ()
      · refine FailFast_forEachE env _ _ (fun m => ?_)
        refine FailFast_bind env (FailFast_emit env rfl) (fun _ => ?_)
        refine FailFast_bind env (FailFast_runProc env _) (fun _ => ?_)
        exact FailFast_emit env rfl

theorem run_format_FailFast (env : Env) (t : Target) (e o : List String)
    (answer : Option Bool) : FailFast env (run_format env t e o answer) := by
  cases t with
  | allPackages =>
      simp only [run_format, Eff.bind_eq, Eff.pure_eq]
      refine FailFast_bind env (FailFast_resolve_answer env answer _) (fun a => ?_)
      cases a
      · exact FailFast_pure env ()
      · refine FailFast_tryForEach env _ _ (fun t2 h => ?_)
        exact run_format_FailFast_base env e o _ (ne_of_mem_targetFilter h).1
  | workspace => exact run_format_FailFast_base env e o answer (by decide)
  | crates => exact run_format_FailFast_base env e o answer (by decide)
  | examples => exact run_format_FailFast_base env e o answer (by decide)

theorem run_format_GroupSafe_base (env : Env) (e o : List String)
    (answer : Option Bool) {t : Target} (ht : t ≠ Target.allPackages) :
    GroupSafe (run_format env t e o answer) := by
  cases t with
  | allPackages => exact absurd rfl ht
  | workspace =>
      simp only [run_format, Eff.bind_eq, Eff.pure_eq]
      refine GroupSafe_bind (GroupSafe_resolve_answer env answer _) (fun a => ?_)
      cases a
      · exact GroupSafe_pure ()
      · exact GroupSafe_groupUnit env _ _
  | crates =>
      simp only [run_format, Eff.bind_eq, Eff.pure_eq]
      refine GroupSafe_bind (GroupSafe_resolve_answer env answer _) (fun a => ?_)
      cases a
      · exact GroupSafe_pure ()
      · exact GroupSafe_forEachE _ _ (fun m => GroupSafe_groupUnit env _ _)
  | examples =>
      simp only [run_format, Eff.bind_eq, Eff.pure_eq]
      refine GroupSafe_bind (GroupSafe_resolve_answer env answer _) (fun a => ?_)
      cases a
      · exact GroupSafe_pure ()
      · exact GroupSafe_forEachE _ _ (fun m => GroupSafe_groupUnit env _ _)

theorem run_format_GroupSafe (env : Env) (t : Target) (e o : List String)
    (answer : Option Bool) : GroupSafe (run_format env t e o answer) := by
  cases t with
  | allPackages =>
      simp only [run_format, Eff.bind_eq, Eff.pure_eq]
      refine GroupSafe_bind (GroupSafe_resolve_answer env answer _) (fun a => ?_)
      cases a
      · exact GroupSafe_pure ()
      · refine GroupSafe_tryForEach _ _ (fun t2 h => ?_)
        exact run_format_GroupSafe_base env e o _ (ne_of_mem_targetFilter h).1
  | workspace => exact run_format_GroupSafe_base env e o answer (by decide)
  | crates => exact run_format_GroupSafe_base env e o answer (by decide)
  | examples => exact run_format_GroupSafe_base env e o answer (by decide)

theorem run_format_countE_base {p : Event → Bool} (hp : NonUi p)
    (hprompt : ∀ m, p (Event.prompt m) = false) (env : Env) (e o : List String)
    (answer : Option Bool) {t : Target} (ht : t ≠ Target.allPackages) :
    countE p (run_format env t e o answer) = 0 := by
  cases t with
  | allPackages => exact absurd rfl ht
  | workspace =>
      simp only [run_format, Eff.bind_eq, Eff.pure_eq]
      refine countE_bind_zero (countE_resolve_answer env answer _ hprompt) (fun a => ?_)
      cases a
      · exact countE_pure p ()
      · rw [if_pos rfl]
        refine countE_bind_zero (countE_emit (hp.2.1 _)) (fun _ => ?_)
        refine countE_bind_zero (countE_runProc env _ (hp.1 _)) (fun _ => ?_)
        exact countE_emit hp.2.2
  | crates =>
      simp only [run_format, Eff.bind_eq, Eff.pure_eq]
      refine countE_bind_zero (countE_resolve_answer env answer _ hprompt) (fun a => ?_)
      cases a
      · exact countE_pure p ()
      · refine countE_forEachE_zero _ _ (fun m => ?_)
        refine countE_bind_zero (countE_emit (hp.2.1 _)) (fun _ => ?_)
        refine countE_bind_zero (countE_runProc env _ (hp.1 _)) (fun _ => ?_)
        exact countE_emit hp.2.2
  | examples =>
      simp only [run_format, Eff.bind_eq, Eff.pure_eq]
      refine countE_bind_zero (countE_resolve_answer env answer _ hprompt) (fun a => ?_)
      cases a
      · exact countE_pure p ()
      · refine countE_forEachE_zero _ _ (fun m => ?_)
        refine countE_bind_zero (countE_emit (hp.2.1 _)) (fun _ => ?_)
        refine countE_bind_zero (countE_runProc env _ (hp.1 _)) (fun _ => ?_)
        exact countE_emit hp.2.2

theorem run_format_countE_some_base {p : Event → Bool} (hp : NonUi p)
    (env : Env) (e o : List String) (b : Bool) {t : Target}
    (ht : t ≠ Target.allPackages) :
    countE p (run_format env t e o (some b)) = 0 := by
  cases t with
  | allPackages => exact absurd rfl ht
  | workspace =>
      simp only [run_format, Eff.bind_eq, Eff.pure_eq]
      refine countE_bind_zero (countE_resolve_answer_some env b _) (fun a => ?_)
      cases a
      · exact countE_pure p ()
      · rw [if_pos rfl]
        refine countE_bind_zero (countE_emit (hp.2.1 _)) (fun _ => ?_)
        refine countE_bind_zero (countE_runProc env _ (hp.1 _)) (fun _ => ?_)
        exact countE_emit hp.2.2
  | crates =>
      simp only [run_format, Eff.bind_eq, Eff.pure_eq]
      refine countE_bind_zero (countE_resolve_answer_some env b _) (fun a => ?_)
      cases a
      · exact countE_pure p ()
      · refine countE_forEachE_zero _ _ (fun m => ?_)
        refine countE_bind_zero (countE_emit (hp.2.1 _)) (fun _ => ?_)
        refine countE_bind_zero (countE_runProc env _ (hp.1 _)) (fun _ => ?_)
        exact countE_emit hp.2.2
  | examples =>
      simp only [run_format, Eff.bind_eq, Eff.pure_eq]
      refine countE_bind_zero (countE_resolve_answer_some env b _) (fun a => ?_)
      cases a
      · exact countE_pure p ()
      · refine countE_forEachE_zero _ _ (fun m => ?_)
        refine countE_bind_zero (countE_emit (hp.2.1 _)) (fun _ => ?_)
        refine countE_bind_zero (countE_runProc env _ (hp.1 _)) (fun _ => ?_)
        exact countE_emit hp.2.2

/-- With an already-resolved incoming answer, run_format performs no prompt
(and no warning), whatever the target. -/
theorem run_format_countE_some {p : Event → Bool} (hp : NonUi p) (env : Env)
    (t : Target) (e o : List String) (b : Bool) :
    countE p (run_format env t e o (some b)) = 0 := by
  cases t with
  | allPackages =>
      simp only [run_format, Eff.bind_eq, Eff.pure_eq]
      refine countE_bind_zero (countE_resolve_answer_some env b _) (fun a => ?_)
      cases a
      · exact countE_pure p ()
      · refine countE_tryForEach_zero _ _ (fun t2 h => ?_)
        exact run_format_countE_some_base hp env e o true
          (ne_of_mem_targetFilter h).1
  | workspace => exact run_format_countE_some_base hp env e o b (by decide)
  | crates => exact run_format_countE_some_base hp env e o b (by decide)
  | examples => exact run_format_countE_some_base hp env e o b (by decide)


/-- run_format performs no warning, for any target and any incoming answer
(prompts are excluded by hprompt). -/
theorem run_format_countE {p : Event → Bool} (hp : NonUi p)
    (hprompt : ∀ m, p (Event.prompt m) = false) (env : Env) (t : Target)
    (e o : List String) (answer : Option Bool) :
    countE p (run_format env t e o answer) = 0 := by
  cases t with
  | allPackages =>
      simp only [run_format, Eff.bind_eq, Eff.pure_eq]
      refine countE_bind_zero (countE_resolve_answer env answer _ hprompt) (fun a => ?_)
      cases a
      · exact countE_pure p ()
      · refine countE_tryForEach_zero _ _ (fun t2 h => ?_)
        exact run_format_countE_some_base hp env e o true (ne_of_mem_targetFilter h).1
  | workspace => exact run_format_countE_base hp hprompt env e o answer (by decide)
  | crates => exact run_format_countE_base hp hprompt env e o answer (by decide)
  | examples => exact run_format_countE_base hp hprompt env e o answer (by decide)

theorem run_lint_FailFast_base (env : Env) (e o : List String)
    (answer : Option Bool) {t : Target} (ht : t ≠ Target.allPackages) :
    FailFast env (run_lint env t e o answer) := by
  cases t with
  | allPackages => exact absurd rfl ht
  | workspace =>
      simp only [run_lint, Eff.bind_eq, Eff.pure_eq]
      refine FailFast_bind env (FailFast_resolve_answer env answer _) (fun a => ?_)
      cases a
      · exact FailFast_pure env ()
      · rw [if_pos rfl]
        refine FailFast_bind env (FailFast_emit env rfl) (fun _ => ?_)
        refine FailFast_bind env (FailFast_runProc env _) (fun _ => ?_)
        exact FailFast_emit env rfl
  | crates =>
      simp only [run_lint, Eff.bind_eq, Eff.pure_eq]
      refine FailFast_bind env (FailFast_resolve_answer env answer _) (fun a => ?_)
      cases a
      · exact FailFast_pure env ()
      · refine FailFast_forEachE env _ _ (fun m => ?_)
        refine FailFast_bind env (FailFast_emit env rfl) (fun _ => ?_)
        refine FailFast_bind env (FailFast_runProc env _) (fun _ => ?_)
        exact FailFast_emit env rfl
  | examples =>
      simp only [run_lint, Eff.bind_eq, Eff.pure_eq]
      refine FailFast_bind env (FailFast_resolve_answer env answer _) (fun a => ?_)
      cases a
      · exact FailFast_pure env ()
      · refine FailFast_forEachE env _ _ (fun m => ?_)
        refine FailFast_bind env (FailFast_emit env rfl) (fun _ => ?_)
        refine FailFast_bind env (FailFast_runProc env _) (fun _ => ?_)
        exact FailFast_emit env rfl

theorem run_lint_FailFast (env : Env) (t : Target) (e o : List String)
    (answer : Option Bool) : FailFast env (run_lint env t e o answer) := by
  cases t with
  | allPackages =>
      simp only [run_lint, Eff.bind_eq, Eff.pure_eq]
      refine FailFast_bind env (FailFast_resolve_answer env answer _) (fun a => ?_)
      cases a
      · exact FailFast_pure env ()
      · refine FailFast_tryForEach env _ _ (fun t2 h => ?_)
        exact run_lint_FailFast_base env e o _ (ne_of_mem_targetFilter h).1
  | workspace => exact run_lint_FailFast_base env e o answer (by decide)
  | crates => exact run_lint_FailFast_base env e o answer (by decide)
  | examples => exact run_lint_FailFast_base env e o answer (by decide)

theorem run_lint_GroupSafe_base (env : Env) (e o : List String)
    (answer : Option Bool) {t : Target} (ht : t ≠ Target.allPackages) :
    GroupSafe (run_lint env t e o answer) := by
  cases t with
  | allPackages => exact absurd rfl ht
  | workspace =>
      simp only [run_lint, Eff.bind_eq, Eff.pure_eq]
      refine GroupSafe_bind (GroupSafe_resolve_answer env answer _) (fun a => ?_)
      cases a
      · exact GroupSafe_pure ()
      · exact GroupSafe_groupUnit env _ _
  | crates =>
      simp only [run_lint, Eff.bind_eq, Eff.pure_eq]
      refine GroupSafe_bind (GroupSafe_resolve_answer env answer _) (fun a => ?_)
      cases a
      · exact GroupSafe_pure ()
      · exact GroupSafe_forEachE _ _ (fun m => GroupSafe_groupUnit env _ _)
  | examples =>
      simp only [run_lint, Eff.bind_eq, Eff.pure_eq]
      refine GroupSafe_bind (GroupSafe_resolve_answer env answer _) (fun a => ?_)
      cases a
      · exact GroupSafe_pure ()
      · exact GroupSafe_forEachE _ _ (fun m => GroupSafe_groupUnit env _ _)

theorem run_lint_GroupSafe (env : Env) (t : Target) (e o : List String)
    (answer : Option Bool) : GroupSafe (run_lint env t e o answer) := by
  cases t with
  | allPackages =>
      simp only [run_lint, Eff.bind_eq, Eff.pure_eq]
      refine GroupSafe_bind (GroupSafe_resolve_answer env answer _) (fun a => ?_)
      cases a
      · exact GroupSafe_pure ()
      · refine GroupSafe_tryForEach _ _ (fun t2 h => ?_)
        exact run_lint_GroupSafe_base env e o _ (ne_of_mem_targetFilter h).1
  | workspace => exact run_lint_GroupSafe_base env e o answer (by decide)
  | crates => exact run_lint_GroupSafe_base env e o answer (by decide)
  | examples => exact run_lint_GroupSafe_base env e o answer (by decide)

theorem run_lint_countE_base {p : Event → Bool} (hp : NonUi p)
    (hprompt : ∀ m, p (Event.prompt m) = false) (env : Env) (e o : List String)
    (answer : Option Bool) {t : Target} (ht : t ≠ Target.allPackages) :
    countE p (run_lint env t e o answer) = 0 := by
  cases t with
  | allPackages => exact absurd rfl ht
  | workspace =>
      simp only [run_lint, Eff.bind_eq, Eff.pure_eq]
      refine countE_bind_zero (countE_resolve_answer env answer _ hprompt) (fun a => ?_)
      cases a
      · exact countE_pure p ()
      · rw [if_pos rfl]
        refine countE_bind_zero (countE_emit (hp.2.1 _)) (fun _ => ?_)
        refine countE_bind_zero (countE_runProc env _ (hp.1 _)) (fun _ => ?_)
        exact countE_emit hp.2.2
  | crates =>
      simp only [run_lint, Eff.bind_eq, Eff.pure_eq]
      refine countE_bind_zero (countE_resolve_answer env answer _ hprompt) (fun a => ?_)
      cases a
      · exact countE_pure p ()
      · refine countE_forEachE_zero _ _ (fun m => ?_)
        refine countE_bind_zero (countE_emit (hp.2.1 _)) (fun _ => ?_)
        refine countE_bind_zero (countE_runProc env _ (hp.1 _)) (fun _ => ?_)
        exact countE_emit hp.2.2
  | examples =>
      simp only [run_lint, Eff.bind_eq, Eff.pure_eq]
      refine countE_bind_zero (countE_resolve_answer env answer _ hprompt) (fun a => ?_)
      cases a
      · exact countE_pure p ()
      · refine countE_forEachE_zero _ _ (fun m => ?_)
        refine countE_bind_zero (countE_emit (hp.2.1 _)) (fun _ => ?_)
        refine countE_bind_zero (countE_runProc env _ (hp.1 _)) (fun _ => ?_)
        exact countE_emit hp.2.2

theorem run_lint_countE_some_base {p : Event → Bool} (hp : NonUi p)
    (env : Env) (e o : List String) (b : Bool) {t : Target}
    (ht : t ≠ Target.allPackages) :
    countE p (run_lint env t e o (some b)) = 0 := by
  cases t with
  | allPackages => exact absurd rfl ht
  | workspace =>
      simp only [run_lint, Eff.bind_eq, Eff.pure_eq]
      refine countE_bind_zero (countE_resolve_answer_some env b _) (fun a => ?_)
      cases a
      · exact countE_pure p ()
      · rw [if_pos rfl]
        refine countE_bind_zero (countE_emit (hp.2.1 _)) (fun _ => ?_)
        refine countE_bind_zero (countE_runProc env _ (hp.1 _)) (fun _ => ?_)
        exact countE_emit hp.2.2
  | crates =>
      simp only [run_lint, Eff.bind_eq, Eff.pure_eq]
      refine countE_bind_zero (countE_resolve_answer_some env b _) (fun a => ?_)
      cases a
      · exact countE_pure p ()
      · refine countE_forEachE_zero _ _ (fun m => ?_)
        refine countE_bind_zero (countE_emit (hp.2.1 _)) (fun _ => ?_)
        refine countE_bind_zero (countE_runProc env _ (hp.1 _)) (fun _ => ?_)
        exact countE_emit hp.2.2
  | examples =>
      simp only [run_lint, Eff.bind_eq, Eff.pure_eq]
      refine countE_bind_zero (countE_resolve_answer_some env b _) (fun a => ?_)
      cases a
      · exact countE_pure p ()
      · refine countE_forEachE_zero _ _ (fun m => ?_)
        refine countE_bind_zero (countE_emit (hp.2.1 _)) (fun _ => ?_)
        refine countE_bind_zero (countE_runProc env _ (hp.1 _)) (fun _ => ?_)
        exact countE_emit hp.2.2

/-- With an already-resolved incoming answer, run_lint performs no prompt
(and no warning), whatever the target. -/
theorem run_lint_countE_some {p : Event → Bool} (hp : NonUi p) (env : Env)
    (t : Target) (e o : List String) (b : Bool) :
    countE p (run_lint env t e o (some b)) = 0 := by
  cases t with
  | allPackages =>
      simp only [run_lint, Eff.bind_eq, Eff.pure_eq]
      refine countE_bind_zero (countE_resolve_answer_some env b _) (fun a => ?_)
      cases a
      · exact countE_pure p ()
      · refine countE_tryForEach_zero _ _ (fun t2 h => ?_)
        exact run_lint_countE_some_base hp env e o true
          (ne_of_mem_targetFilter h).1
  | workspace => exact run_lint_countE_some_base hp env e o b (by decide)
  | crates => exact run_lint_countE_some_base hp env e o b (by decide)
  | examples => exact run_lint_countE_some_base hp env e o b (by decide)


/-- run_lint performs no warning, for any target and any incoming answer
(prompts are excluded by hprompt). -/
theorem run_lint_countE {p : Event → Bool} (hp : NonUi p)
    (hprompt : ∀ m, p (Event.prompt m) = false) (env : Env) (t : Target)
    (e o : List String) (answer : Option Bool) :
    countE p (run_lint env t e o answer) = 0 := by
  cases t with
  | allPackages =>
      simp only [run_lint, Eff.bind_eq, Eff.pure_eq]
      refine countE_bind_zero (countE_resolve_answer env answer _ hprompt) (fun a => ?_)
      cases a
      · exact countE_pure p ()
      · refine countE_tryForEach_zero _ _ (fun t2 h => ?_)
        exact run_lint_countE_some_base hp env e o true (ne_of_mem_targetFilter h).1
  | workspace => exact run_lint_countE_base hp hprompt env e o answer (by decide)
  | crates => exact run_lint_countE_base hp hprompt env e o answer (by decide)
  | examples => exact run_lint_countE_base hp hprompt env e o answer (by decide)

theorem countE_warn_stage_some {p : Event → Bool} (args : CheckCmdArgs)
    (b : Bool) : countE p (warn_stage args (some b)) = 0 := rfl

theorem handle_command_FailFast_base (env : Env) (args : CheckCmdArgs)
    (answer : Option Bool) (hc : args.command ≠ CheckCommand.all) :
    FailFast env (handle_command env args answer) := by
  obtain ⟨t, e, o, cmd⟩ := args
  cases cmd with
  | all => exact absurd rfl hc
  | audit =>
      simp only [handle_command, Eff.bind_eq, Eff.pure_eq]
      exact FailFast_bind env (FailFast_warn_stage env _ _)
        (fun _ => run_audit_FailFast env answer)
  | compile =>
      simp only [handle_command, Eff.bind_eq, Eff.pure_eq]
      exact FailFast_bind env (FailFast_warn_stage env _ _)
        (fun _ => run_compile_FailFast env t e o answer)
  | format =>
      simp only [handle_command, Eff.bind_eq, Eff.pure_eq]
      exact FailFast_bind env (FailFast_warn_stage env _ _)
        (fun _ => run_format_FailFast env t e o answer)
  | lint =>
      simp only [handle_command, Eff.bind_eq, Eff.pure_eq]
      exact FailFast_bind env (FailFast_warn_stage env _ _)
        (fun _ => run_lint_FailFast env t e o answer)
  | typos =>
      simp only [handle_command, Eff.bind_eq, Eff.pure_eq]
      exact FailFast_bind env (FailFast_warn_stage env _ _)
        (fun _ => run_typos_FailFast env answer)

theorem handle_command_FailFast (env : Env) (args : CheckCmdArgs)
    (answer : Option Bool) : FailFast env (handle_command env args answer) := by
  obtain ⟨t, e, o, cmd⟩ := args
  cases cmd with
  | all =>
      rw [handle_command]
      simp only [Eff.bind_eq, Eff.pure_eq]
      refine FailFast_bind env (FailFast_warn_stage env _ _) (fun _ => ?_)
      refine FailFast_bind env (FailFast_ask_once env _) (fun b => ?_)
      refine FailFast_tryForEach env _ _ (fun c h => ?_)
      exact handle_command_FailFast_base env _ _ (ne_of_mem_cmdFilter h)
  | audit => exact handle_command_FailFast_base env _ answer (by simp)
  | compile => exact handle_command_FailFast_base env _ answer (by simp)
  | format => exact handle_command_FailFast_base env _ answer (by simp)
  | lint => exact handle_command_FailFast_base env _ answer (by simp)
  | typos => exact handle_command_FailFast_base env _ answer (by simp)

theorem handle_command_GroupSafe_base (env : Env) (args : CheckCmdArgs)
    (answer : Option Bool) (hc : args.command ≠ CheckCommand.all) :
    GroupSafe (handle_command env args answer) := by
  obtain ⟨t, e, o, cmd⟩ := args
  cases cmd with
  | all => exact absurd rfl hc
  | audit =>
      simp only [handle_command, Eff.bind_eq, Eff.pure_eq]
      exact GroupSafe_bind (GroupSafe_warn_stage _ _)
        (fun _ => run_audit_GroupSafe env answer)
  | compile =>
      simp only [handle_command, Eff.bind_eq, Eff.pure_eq]
      exact GroupSafe_bind (GroupSafe_warn_stage _ _)
        (fun _ => run_compile_GroupSafe env t e o answer)
  | format =>
      simp only [handle_command, Eff.bind_eq, Eff.pure_eq]
      exact GroupSafe_bind (GroupSafe_warn_stage _ _)
        (fun _ => run_format_GroupSafe env t e o answer)
  | lint =>
      simp only [handle_command, Eff.bind_eq, Eff.pure_eq]
      exact GroupSafe_bind (GroupSafe_warn_stage _ _)
        (fun _ => run_lint_GroupSafe env t e o answer)
  | typos =>
      simp only [handle_command, Eff.bind_eq, Eff.pure_eq]
      exact GroupSafe_bind (GroupSafe_warn_stage _ _)
        (fun _ => run_typos_GroupSafe env answer)

theorem handle_command_GroupSafe (env : Env) (args : CheckCmdArgs)
    (answer : Option Bool) : GroupSafe (handle_command env args answer) := by
  obtain ⟨t, e, o, cmd⟩ := args
  cases cmd with
  | all =>
      rw [handle_command]
      simp only [Eff.bind_eq, Eff.pure_eq]
      refine GroupSafe_bind (GroupSafe_warn_stage _ _) (fun _ => ?_)
      refine GroupSafe_bind (GroupSafe_ask_once env _) (fun b => ?_)
      refine GroupSafe_tryForEach _ _ (fun c h => ?_)
      exact handle_command_GroupSafe_base env _ _ (ne_of_mem_cmdFilter h)
  | audit => exact handle_command_GroupSafe_base env _ answer (by simp)
  | compile => exact handle_command_GroupSafe_base env _ answer (by simp)
  | format => exact handle_command_GroupSafe_base env _ answer (by simp)
  | lint => exact handle_command_GroupSafe_base env _ answer (by simp)
  | typos => exact handle_command_GroupSafe_base env _ answer (by simp)

/-- With an already-resolved incoming answer, a non-composite dispatch performs
no prompt and no warning. -/
theorem handle_command_countE_some_base {p : Event → Bool} (hp : NonUi p)
    (env : Env) (args : CheckCmdArgs) (b : Bool)
    (hc : args.command ≠ CheckCommand.all) :
    countE p (handle_command env args (some b)) = 0 := by
  obtain ⟨t, e, o, cmd⟩ := args
  cases cmd with
  | all => exact absurd rfl hc
  | audit =>
      simp only [handle_command, Eff.bind_eq, Eff.pure_eq]
      exact countE_bind_zero (countE_warn_stage_some _ b)
        (fun _ => run_audit_countE_some hp env b)
  | compile =>
      simp only [handle_command, Eff.bind_eq, Eff.pure_eq]
      exact countE_bind_zero (countE_warn_stage_some _ b)
        (fun _ => run_compile_countE hp env t e o (some b))
  | format =>
      simp only [handle_command, Eff.bind_eq, Eff.pure_eq]
      exact countE_bind_zero (countE_warn_stage_some _ b)
        (fun _ => run_format_countE_some hp env t e o b)
  | lint =>
      simp only [handle_command, Eff.bind_eq, Eff.pure_eq]
      exact countE_bind_zero (countE_warn_stage_some _ b)
        (fun _ => run_lint_countE_some hp env t e o b)
  | typos =>
      simp only [handle_command, Eff.bind_eq, Eff.pure_eq]
      exact countE_bind_zero (countE_warn_stage_some _ b)
        (fun _ => run_typos_countE_some hp env b)

/-- With an already-resolved incoming answer, a dispatch performs no warning
(for prompts this needs `hprompt`: the composite All re-asks even then). -/
theorem handle_command_countE_some {p : Event → Bool} (hp : NonUi p)
    (hprompt : ∀ m, p (Event.prompt m) = false) (env : Env)
    (args : CheckCmdArgs) (b : Bool) :
    countE p (handle_command env args (some b)) = 0 := by
  obtain ⟨t, e, o, cmd⟩ := args
  cases cmd with
  | all =>
      rw [handle_command]
      simp only [Eff.bind_eq, Eff.pure_eq]
      refine countE_bind_zero (countE_warn_stage_some _ b) (fun _ => ?_)
      refine countE_bind_zero (countE_ask_once env _ (hprompt _)) (fun b2 => ?_)
      refine countE_tryForEach_zero _ _ (fun c h => ?_)
      exact handle_command_countE_some_base hp env _ _ (ne_of_mem_cmdFilter h)
  | audit => exact handle_command_countE_some_base hp env _ b (by simp)
  | compile => exact handle_command_countE_some_base hp env _ b (by simp)
  | format => exact handle_command_countE_some_base hp env _ b (by simp)
  | lint => exact handle_command_countE_some_base hp env _ b (by simp)
  | typos => exact handle_command_countE_some_base hp env _ b (by simp)

/-! ## Helper lemmas for the claim theorems -/

/-- With a supplied answer the warning stage is skipped, so a leaf dispatch is
exactly its run_* handler. -/
theorem handle_command_leaf_audit (env : Env) (t : Target) (e o : List String)
    (b : Bool) :
    handle_command env ⟨t, e, o, CheckCommand.audit⟩ (some b) =
      run_audit env (some b) := by
  rw [handle_command]
  rfl

theorem handle_command_leaf_compile (env : Env) (t : Target) (e o : List String)
    (b : Bool) :
    handle_command env ⟨t, e, o, CheckCommand.compile⟩ (some b) =
      run_compile env t e o (some b) := by
  rw [handle_command]
  rfl

theorem handle_command_leaf_format (env : Env) (t : Target) (e o : List String)
    (b : Bool) :
    handle_command env ⟨t, e, o, CheckCommand.format⟩ (some b) =
      run_format env t e o (some b) := by
  rw [handle_command]
  rfl

theorem handle_command_leaf_lint (env : Env) (t : Target) (e o : List String)
    (b : Bool) :
    handle_command env ⟨t, e, o, CheckCommand.lint⟩ (some b) =
      run_lint env t e o (some b) := by
  rw [handle_command]
  rfl

theorem handle_command_leaf_typos (env : Env) (t : Target) (e o : List String)
    (b : Bool) :
    handle_command env ⟨t, e, o, CheckCommand.typos⟩ (some b) =
      run_typos env (some b) := by
  rw [handle_command]
  rfl

theorem run_compile_declined (env : Env) (t : Target) (e o : List String) :
    run_compile env t e o (some false) = Eff.pure () := by
  cases t <;> simp [run_compile]

theorem run_format_declined (env : Env) (t : Target) (e o : List String) :
    run_format env t e o (some false) = Eff.pure () := by
  cases t <;> simp [run_format, resolve_answer]

theorem run_lint_declined (env : Env) (t : Target) (e o : List String) :
    run_lint env t e o (some false) = Eff.pure () := by
  cases t <;> simp [run_lint, resolve_answer]

theorem runEvents_eq_nil {l : List Event} (h : l.countP Event.isRun = 0) :
    runEvents l = [] := by
  induction l with
  | nil => rfl
  | cons e tr ih =>
      rw [List.countP_cons] at h
      cases e with
      | run i => simp [Event.isRun] at h
      | warn m =>
          simp only [runEvents, List.filterMap_cons]
          exact ih (by simpa [Event.isRun] using h)
      | prompt m =>
          simp only [runEvents, List.filterMap_cons]
          exact ih (by simpa [Event.isRun] using h)
      | openGroup t =>
          simp only [runEvents, List.filterMap_cons]
          exact ih (by simpa [Event.isRun] using h)
      | closeGroup =>
          simp only [runEvents, List.filterMap_cons]
          exact ih (by simpa [Event.isRun] using h)

theorem warnMsgs_append (l1 l2 : List Event) :
    warnMsgs (l1 ++ l2) = warnMsgs l1 ++ warnMsgs l2 :=
  List.filterMap_append l1 l2 _

theorem warnMsgs_eq_nil {l : List Event} (h : l.countP Event.isWarn = 0) :
    warnMsgs l = [] := by
  induction l with
  | nil => rfl
  | cons e tr ih =>
      rw [List.countP_cons] at h
      cases e with
      | warn m => simp [Event.isWarn] at h
      | run i =>
          simp only [warnMsgs, List.filterMap_cons]
          exact ih (by simpa [Event.isWarn] using h)
      | prompt m =>
          simp only [warnMsgs, List.filterMap_cons]
          exact ih (by simpa [Event.isWarn] using h)
      | openGroup t =>
          simp only [warnMsgs, List.filterMap_cons]
          exact ih (by simpa [Event.isWarn] using h)
      | closeGroup =>
          simp only [warnMsgs, List.filterMap_cons]
          exact ih (by simpa [Event.isWarn] using h)

theorem warn_stage_runEvents (args : CheckCmdArgs) (answer : Option Bool) :
    runEvents (warn_stage args answer).trace = [] :=
  runEvents_eq_nil (countE_warn_stage args answer (fun _ => rfl))

/-- Sequencing after a successful, invocation-free prefix does not change the
performed invocations or the result. -/
theorem bind_silent {x : Eff Unit} (f : Unit → Eff Unit)
    (hx : runEvents x.trace = []) (hres : x.result = Except.ok ()) :
    runEvents (Eff.bind x f).trace = runEvents (f ()).trace ∧
      (Eff.bind x f).result = (f ()).result := by
  constructor
  · rw [Eff.bind_trace]
    simp only [hres, runEvents_append, hx, List.nil_append]
  · rw [Eff.bind_result]
    simp only [hres]


/-! ## Claim theorems -/

/-- C3: the downcast conversion generated for an extended vocabulary (Target or
Subcommand) succeeds exactly on base-originated variants, where it returns the
corresponding base variant — so composing a base variant into the extended
vocabulary and downcasting yields the original value — and fails with an
unsupported-variant error naming the variant on every host-only variant. -/
theorem c3_downcast_roundtrip :
    ∀ (H : Type) (display : H → String),
      (∀ b : Target,
        ExtendedTarget.try_into display (Target.compose b) = Except.ok b) ∧
      (∀ x : ExtendedTarget H,
        (∃ b, ExtendedTarget.try_into display x = Except.ok b) ↔
          ∃ b, x = Target.compose b) ∧
      (∀ h : H,
        ExtendedTarget.try_into display (ExtendedTarget.extra h) =
          Except.error (display h ++ " target is not supported.")) ∧
      (∀ b : CheckSubCommand,
        ExtendedCheckSubCommand.try_into display (CheckSubCommand.compose b) =
          Except.ok b) ∧
      (∀ x : ExtendedCheckSubCommand H,
        (∃ b, ExtendedCheckSubCommand.try_into display x = Except.ok b) ↔
          ∃ b, x = CheckSubCommand.compose b) ∧
      (∀ h : H,
        ExtendedCheckSubCommand.try_into display (ExtendedCheckSubCommand.extra h) =
          Except.error (display h ++ " target is not supported.")) := by
  intro H display
  refine ⟨?_, ?_, ?_, ?_, ?_, ?_⟩
  · intro b; cases b <;> rfl
  · intro x
    cases x with
    | allPackages =>
        exact ⟨fun _ => ⟨Target.allPackages, rfl⟩, fun _ => ⟨Target.allPackages, rfl⟩⟩
    | crates => exact ⟨fun _ => ⟨Target.crates, rfl⟩, fun _ => ⟨Target.crates, rfl⟩⟩
    | examples => exact ⟨fun _ => ⟨Target.examples, rfl⟩, fun _ => ⟨Target.examples, rfl⟩⟩
    | workspace => exact ⟨fun _ => ⟨Target.workspace, rfl⟩, fun _ => ⟨Target.workspace, rfl⟩⟩
    | extra h =>
        constructor
        · rintro ⟨b, hb⟩
          simp [ExtendedTarget.try_into] at hb
        · rintro ⟨b, hb⟩
          cases b <;> simp [Target.compose] at hb
  · intro h; rfl
  · intro b; cases b <;> rfl
  · intro x
    cases x with
    | all => exact ⟨fun _ => ⟨CheckSubCommand.all, rfl⟩, fun _ => ⟨CheckSubCommand.all, rfl⟩⟩
    | audit => exact ⟨fun _ => ⟨CheckSubCommand.audit, rfl⟩, fun _ => ⟨CheckSubCommand.audit, rfl⟩⟩
    | format => exact ⟨fun _ => ⟨CheckSubCommand.format, rfl⟩, fun _ => ⟨CheckSubCommand.format, rfl⟩⟩
    | lint => exact ⟨fun _ => ⟨CheckSubCommand.lint, rfl⟩, fun _ => ⟨CheckSubCommand.lint, rfl⟩⟩
    | typos => exact ⟨fun _ => ⟨CheckSubCommand.typos, rfl⟩, fun _ => ⟨CheckSubCommand.typos, rfl⟩⟩
    | extra h =>
        constructor
        · rintro ⟨b, hb⟩
          simp [ExtendedCheckSubCommand.try_into] at hb
        · rintro ⟨b, hb⟩
          cases b <;> simp [CheckSubCommand.compose] at hb
  · intro h; rfl

/-- C10: for the Audit and Typos subcommands the external invocations and the
result are independent of the target, exclude-set and only-set: two dispatches
with the same incoming answer and any two (target, exclude, only) triples
perform identical external invocations with identical arguments. -/
theorem c10_audit_typos_ignore_filters :
    ∀ (env : Env) (t1 t2 : Target) (e1 e2 o1 o2 : List String)
      (answer : Option Bool),
      (runEvents (handle_command env ⟨t1, e1, o1, CheckCommand.audit⟩ answer).trace =
        runEvents (handle_command env ⟨t2, e2, o2, CheckCommand.audit⟩ answer).trace) ∧
      ((handle_command env ⟨t1, e1, o1, CheckCommand.audit⟩ answer).result =
        (handle_command env ⟨t2, e2, o2, CheckCommand.audit⟩ answer).result) ∧
      (runEvents (handle_command env ⟨t1, e1, o1, CheckCommand.typos⟩ answer).trace =
        runEvents (handle_command env ⟨t2, e2, o2, CheckCommand.typos⟩ answer).trace) ∧
      ((handle_command env ⟨t1, e1, o1, CheckCommand.typos⟩ answer).result =
        (handle_command env ⟨t2, e2, o2, CheckCommand.typos⟩ answer).result) := by
  intro env t1 t2 e1 e2 o1 o2 answer
  have keyA : ∀ (t : Target) (e o : List String),
      runEvents (handle_command env ⟨t, e, o, CheckCommand.audit⟩ answer).trace =
        runEvents (run_audit env answer).trace ∧
      (handle_command env ⟨t, e, o, CheckCommand.audit⟩ answer).result =
        (run_audit env answer).result := by
    intro t e o
    rw [handle_command]
    exact bind_silent _ (warn_stage_runEvents _ _) (warn_stage_result _ _)
  have keyT : ∀ (t : Target) (e o : List String),
      runEvents (handle_command env ⟨t, e, o, CheckCommand.typos⟩ answer).trace =
        runEvents (run_typos env answer).trace ∧
      (handle_command env ⟨t, e, o, CheckCommand.typos⟩ answer).result =
        (run_typos env answer).result := by
    intro t e o
    rw [handle_command]
    exact bind_silent _ (warn_stage_runEvents _ _) (warn_stage_result _ _)
  exact ⟨(keyA t1 e1 o1).1.trans (keyA t2 e2 o2).1.symm,
    (keyA t1 e1 o1).2.trans (keyA t2 e2 o2).2.symm,
    (keyT t1 e1 o1).1.trans (keyT t2 e2 o2).1.symm,
    (keyT t1 e1 o1).2.trans (keyT t2 e2 o2).2.symm⟩

/-- C5: with an incoming answer `Some b`, every subcommand handler (audit,
compile, format, lint, typos) never prompts, and the effective decision is
`b`: with `Some false` every handler skips and returns success, and with
`Some true` the action proceeds (its first collaborator event is the action's
own, with no prompt before it). -/
theorem c5_incoming_answer_is_decision :
    ∀ (env : Env) (t : Target) (e o : List String) (b : Bool),
      promptCount (run_audit env (some b)).trace = 0 ∧
      promptCount (run_compile env t e o (some b)).trace = 0 ∧
      promptCount (run_format env t e o (some b)).trace = 0 ∧
      promptCount (run_lint env t e o (some b)).trace = 0 ∧
      promptCount (run_typos env (some b)).trace = 0 ∧
      run_audit env (some false) = Eff.pure () ∧
      run_compile env t e o (some false) = Eff.pure () ∧
      run_format env t e o (some false) = Eff.pure () ∧
      run_lint env t e o (some false) = Eff.pure () ∧
      run_typos env (some false) = Eff.pure () ∧
      (run_audit env (some true)).trace.head? =
        some (Event.run (ProcInvocation.ensureCargoCrateIsInstalled "cargo-audit"
          (some "fix") none false)) ∧
      (run_typos env (some true)).trace.head? =
        some (Event.run (ProcInvocation.ensureCargoCrateIsInstalled "typos-cli"
          none (some TYPOS_VERSION) false)) ∧
      (run_compile env Target.workspace e o (some true)).trace.head? =
        some (Event.openGroup "Compile Workspace") ∧
      (run_format env Target.workspace e o (some true)).trace.head? =
        some (Event.openGroup "Format Workspace") ∧
      (run_lint env Target.workspace e o (some true)).trace.head? =
        some (Event.openGroup "Lint Workspace") := by
  intro env t e o b
  refine ⟨?_, ?_, ?_, ?_, ?_, rfl, run_compile_declined env t e o,
    run_format_declined env t e o, run_lint_declined env t e o, rfl,
    ?_, ?_, ?_, ?_, ?_⟩
  · exact run_audit_countE_some NonUi_isPrompt env b
  · exact run_compile_countE NonUi_isPrompt env t e o (some b)
  · exact run_format_countE_some NonUi_isPrompt env t e o b
  · exact run_lint_countE_some NonUi_isPrompt env t e o b
  · exact run_typos_countE_some NonUi_isPrompt env b
  · by_cases h : env.procFails
        (ProcInvocation.ensureCargoCrateIsInstalled "cargo-audit" (some "fix") none false) <;>
      simp [run_audit, resolve_answer, runProc, Eff.bind, h]
  · by_cases h : env.procFails
        (ProcInvocation.ensureCargoCrateIsInstalled "typos-cli" none (some TYPOS_VERSION) false) <;>
      simp [run_typos, resolve_answer, runProc, Eff.bind, h]
  · simp [run_compile, emit, Eff.bind]
  · simp [run_format, resolve_answer, emit, Eff.bind]
  · simp [run_lint, resolve_answer, emit, Eff.bind]

/-- C7: when the confirmation for the mutating Format subcommand resolves to
false — either an incoming `Some false` or a prompt answered no — no external
process invocation occurs and the handler returns success; the same holds for
Compile's early-return on `Some false`. -/
theorem c7_declined_confirmation_is_success :
    ∀ (env : Env) (t : Target) (e o : List String),
      run_format env t e o (some false) = Eff.pure () ∧
      run_compile env t e o (some false) = Eff.pure () ∧
      (env.promptAnswer = false →
        runEvents (run_format env t e o none).trace = [] ∧
        (run_format env t e o none).result = Except.ok ()) := by
  intro env t e o
  refine ⟨run_format_declined env t e o, run_compile_declined env t e o, ?_⟩
  intro h
  cases t <;>
    constructor <;>
      simp [run_format, resolve_answer, ask_once, Eff.bind, h, runEvents, Event.runInv]

theorem c7_witness :
    runEvents (run_format envNo Target.workspace [] [] none).trace = [] ∧
      (run_format envNo Target.workspace [] [] none).result = Except.ok () :=
  (c7_declined_confirmation_is_success envNo Target.workspace [] []).2.2 rfl

/-- C8: every dispatch is fail-fast: on success every performed invocation
succeeded; on failure the performed invocations are a sequence of successes
followed by exactly one failing invocation — nothing later runs — and the
reported error is that invocation's context message. -/
theorem c8_fail_fast :
    ∀ (env : Env) (args : CheckCmdArgs) (answer : Option Bool),
      (∀ u : Unit, (handle_command env args answer).result = Except.ok u →
        ∀ i ∈ runEvents (handle_command env args answer).trace,
          env.procFails i = false) ∧
      (∀ err : String, (handle_command env args answer).result = Except.error err →
        ∃ pre inv,
          runEvents (handle_command env args answer).trace = pre ++ [inv] ∧
          (∀ i ∈ pre, env.procFails i = false) ∧
          env.procFails inv = true ∧ err = inv.context) := by
  intro env args answer
  have h := handle_command_FailFast env args answer
  unfold FailFast at h
  constructor
  · intro u hu
    rw [hu] at h
    exact h
  · intro err herr
    rw [herr] at h
    exact h

theorem c8_witness :
    ∃ pre inv,
      runEvents (handle_command envAuditFails
        ⟨Target.workspace, [], [], CheckCommand.audit⟩ (some true)).trace =
          pre ++ [inv] ∧
      (∀ i ∈ pre, envAuditFails.procFails i = false) ∧
      envAuditFails.procFails inv = true ∧
      "Audit check execution failed" = inv.context := by
  refine (c8_fail_fast envAuditFails
    ⟨Target.workspace, [], [], CheckCommand.audit⟩ (some true)).2
    "Audit check execution failed" ?_
  simp [handle_command, warn_stage, run_audit, run_compile, run_format, run_lint,
    run_typos, resolve_answer, ask_once, runProc, emit, warnE, get_workspace_members,
    tryForEach, forEachE, Eff.bind, Eff.pure, Target.iterList, CheckCommand.iterList,
    envAuditFails, ProcInvocation.context]

/-- C9 counterexample: the claim says open_group and close_group always come in
matched pairs, even in failing executions; but when the audit process fails,
the group opened around it is never closed (one open, zero closes). -/
theorem c9_counterexample :
    (handle_command envAuditFails ⟨Target.workspace, [], [], CheckCommand.audit⟩
      (some true)).result = Except.error "Audit check execution failed" ∧
    (handle_command envAuditFails ⟨Target.workspace, [], [], CheckCommand.audit⟩
      (some true)).trace.countP Event.isOpen = 1 ∧
    (handle_command envAuditFails ⟨Target.workspace, [], [], CheckCommand.audit⟩
      (some true)).trace.countP Event.isClose = 0 := by
  refine ⟨?_, ?_, ?_⟩ <;>
    simp [handle_command, warn_stage, run_audit, resolve_answer, runProc, emit,
      Eff.bind, Eff.pure, envAuditFails, ProcInvocation.context, Event.isOpen,
      Event.isClose, List.countP_cons]

/-- C9 amended: in every successful execution of a dispatch the logging groups
balance (each open_group matched by a close_group, properly nested); in a
failing execution at most the one group opened around the failing Execute step
is left open. -/
theorem c9_amended_group_balance :
    ∀ (env : Env) (args : CheckCmdArgs) (answer : Option Bool) (d : Nat),
      (∀ u : Unit, (handle_command env args answer).result = Except.ok u →
        groupDelta (handle_command env args answer).trace d = some d) ∧
      (∀ err : String, (handle_command env args answer).result = Except.error err →
        groupDelta (handle_command env args answer).trace d = some d ∨
        groupDelta (handle_command env args answer).trace d = some (d + 1)) := by
  intro env args answer d
  have h := handle_command_GroupSafe env args answer
  unfold GroupSafe at h
  constructor
  · intro u hu
    have hd := h d
    rw [hu] at hd
    exact hd
  · intro err herr
    have hd := h d
    rw [herr] at hd
    exact hd

theorem c9_amended_witness :
    groupDelta (handle_command envOk ⟨Target.workspace, [], [], CheckCommand.all⟩
      none).trace 0 = some 0 := by
  refine (c9_amended_group_balance envOk
    ⟨Target.workspace, [], [], CheckCommand.all⟩ none 0).1 () ?_
  simp [handle_command, warn_stage, run_audit, run_compile, run_format, run_lint,
    run_typos, resolve_answer, ask_once, runProc, emit, warnE, get_workspace_members,
    tryForEach, forEachE, Eff.bind, Eff.pure, Target.iterList, CheckCommand.iterList,
    envOk]

theorem handle_command_warnMsgs_none (env : Env) (args : CheckCmdArgs) :
    warnMsgs (handle_command env args none).trace =
      warnMsgs (warn_stage args none).trace := by
  obtain ⟨t, e, o, cmd⟩ := args
  cases cmd with
  | audit =>
      rw [handle_command]
      simp only [Eff.bind_eq]
      rw [Eff.bind_trace]
      simp only [warn_stage_result]
      rw [warnMsgs_append,
        warnMsgs_eq_nil (run_audit_countE NonUi_isWarn (fun _ => rfl) env none),
        List.append_nil]
  | compile =>
      rw [handle_command]
      simp only [Eff.bind_eq]
      rw [Eff.bind_trace]
      simp only [warn_stage_result]
      rw [warnMsgs_append,
        warnMsgs_eq_nil (run_compile_countE NonUi_isWarn env t e o none),
        List.append_nil]
  | format =>
      rw [handle_command]
      simp only [Eff.bind_eq]
      rw [Eff.bind_trace]
      simp only [warn_stage_result]
      rw [warnMsgs_append,
        warnMsgs_eq_nil (run_format_countE NonUi_isWarn (fun _ => rfl) env t e o none),
        List.append_nil]
  | lint =>
      rw [handle_command]
      simp only [Eff.bind_eq]
      rw [Eff.bind_trace]
      simp only [warn_stage_result]
      rw [warnMsgs_append,
        warnMsgs_eq_nil (run_lint_countE NonUi_isWarn (fun _ => rfl) env t e o none),
        List.append_nil]
  | typos =>
      rw [handle_command]
      simp only [Eff.bind_eq]
      rw [Eff.bind_trace]
      simp only [warn_stage_result]
      rw [warnMsgs_append,
        warnMsgs_eq_nil (run_typos_countE NonUi_isWarn (fun _ => rfl) env none),
        List.append_nil]
  | all =>
      rw [handle_command]
      simp only [Eff.bind_eq]
      rw [Eff.bind_trace]
      simp only [warn_stage_result]
      rw [warnMsgs_append]
      have hz : countE Event.isWarn
          (Eff.bind (ask_once env
            "This will run all the checks with autofix on all members of the workspace.")
            (fun b => tryForEach
              (CheckCommand.iterList.filter (fun c => c != CheckCommand.all))
              (fun c hc => handle_command env ⟨t, e, o, c⟩ (some b)))) = 0 :=
        countE_bind_zero (countE_ask_once env _ rfl)
          (fun b => countE_tryForEach_zero _ _
            (fun c h => handle_command_countE_some NonUi_isWarn (fun _ => rfl) env _ b))
      rw [warnMsgs_eq_nil hz, List.append_nil]

theorem warn_stage_msgs_compile (t : Target) (e o : List String) :
    warnMsgs (warn_stage ⟨t, e, o, CheckCommand.compile⟩ none).trace =
      if t == Target.workspace && !o.isEmpty then [WARN_IGNORED_ONLY_ARGS]
      else [] := by
  unfold warn_stage
  cases hb : (t == Target.workspace && !o.isEmpty) <;>
    simp [hb, warnMsgs, warnE, emit]

theorem warn_stage_msgs_other (t : Target) (e o : List String)
    (cmd : CheckCommand) (hc : cmd ≠ CheckCommand.compile) :
    warnMsgs (warn_stage ⟨t, e, o, cmd⟩ none).trace =
      if t == Target.workspace && (!e.isEmpty || !o.isEmpty) then
        [WARN_IGNORED_EXCLUDE_AND_ONLY_ARGS]
      else [] := by
  cases cmd
  case compile => exact absurd rfl hc
  all_goals
    unfold warn_stage
    cases hb : (t == Target.workspace && (!e.isEmpty || !o.isEmpty)) <;>
      simp [hb, warnMsgs, warnE, emit]

/-- C6: at Workspace target (top-level invocation, no incoming answer), the
Compile subcommand warns iff the only-set is non-empty — the exclude-set alone
triggers no warning — while every other subcommand warns iff the exclude-set
or the only-set is non-empty; the two cases use different warning texts. -/
theorem c6_workspace_warning_policy :
    ∀ (env : Env) (cmd : CheckCommand) (e o : List String),
      (warnMsgs (handle_command env
          ⟨Target.workspace, e, o, CheckCommand.compile⟩ none).trace =
        if o.isEmpty then [] else [WARN_IGNORED_ONLY_ARGS]) ∧
      (cmd ≠ CheckCommand.compile →
        warnMsgs (handle_command env ⟨Target.workspace, e, o, cmd⟩ none).trace =
          if e.isEmpty && o.isEmpty then []
          else [WARN_IGNORED_EXCLUDE_AND_ONLY_ARGS]) ∧
      WARN_IGNORED_ONLY_ARGS ≠ WARN_IGNORED_EXCLUDE_AND_ONLY_ARGS := by
  intro env cmd e o
  refine ⟨?_, ?_, ?_⟩
  · rw [handle_command_warnMsgs_none, warn_stage_msgs_compile]
    cases o <;> simp
  · intro hc
    rw [handle_command_warnMsgs_none, warn_stage_msgs_other _ _ _ _ hc]
    cases e <;> cases o <;> simp
  · decide

theorem c6_witness :
    warnMsgs (handle_command envOk
      ⟨Target.workspace, ["a"], [], CheckCommand.audit⟩ none).trace =
      [WARN_IGNORED_EXCLUDE_AND_ONLY_ARGS] := by
  have h := (c6_workspace_warning_policy envOk CheckCommand.audit ["a"] []).2.1
    (by decide)
  simpa using h

/-- C2: for every command, filter set and confirmation state, an AllPackages
dispatch expands into exactly the two sub-targets Crates then Examples, in
that order, and never the Workspace target: the expansion list computed from
`Target::iter()` is exactly `[Crates, Examples]` (Workspace is not in it), and
each package-granular handler at AllPackages is literally the Crates dispatch
sequenced before the Examples dispatch (guarded by its confirmation). -/
theorem c2_allpackages_expansion :
    ∀ (env : Env) (e o : List String) (answer : Option Bool),
      (Target.iterList.filter
          (fun t => t != Target.allPackages && t != Target.workspace) =
        [Target.crates, Target.examples]) ∧
      Target.workspace ∉ Target.iterList.filter
        (fun t => t != Target.allPackages && t != Target.workspace) ∧
      (run_compile env Target.allPackages e o answer =
        if answer = some false then Eff.pure ()
        else Eff.bind (run_compile env Target.crates e o none)
          (fun _ => run_compile env Target.examples e o none)) ∧
      (run_format env Target.allPackages e o answer =
        Eff.bind (resolve_answer env answer
          "This will run format check with auto-fix on all packages of the workspace.")
          (fun b => if b then
              Eff.bind (run_format env Target.crates e o (some b))
                (fun _ => run_format env Target.examples e o (some b))
            else Eff.pure ())) ∧
      (run_lint env Target.allPackages e o answer =
        Eff.bind (resolve_answer env answer
          "This will run lint check with auto-fix on all packages of the workspace.")
          (fun b => if b then
              Eff.bind (run_lint env Target.crates e o (some b))
                (fun _ => run_lint env Target.examples e o (some b))
            else Eff.pure ())) := by
  intro env e o answer
  refine ⟨rfl, by decide, ?_, ?_, ?_⟩
  · by_cases h : answer = some false
    · conv_lhs => rw [run_compile]
      rw [if_pos h, if_pos h]
    · conv_lhs => rw [run_compile]
      rw [if_neg h, if_neg h]
      have hl : Target.iterList.filter
          (fun t => t != Target.allPackages && t != Target.workspace) =
          [Target.crates, Target.examples] := rfl
      rw [hl]
      simp only [tryForEach, Eff.bind_pure_right]
  · conv_lhs => rw [run_format]
    simp only [Eff.bind_eq, Eff.pure_eq]
    refine congrArg (Eff.bind _) (funext fun b => ?_)
    cases b
    · rfl
    · rw [if_pos rfl, if_pos rfl]
      have hl : Target.iterList.filter
          (fun t => t != Target.allPackages && t != Target.workspace) =
          [Target.crates, Target.examples] := rfl
      rw [hl]
      simp only [tryForEach, Eff.bind_pure_right]
  · conv_lhs => rw [run_lint]
    simp only [Eff.bind_eq, Eff.pure_eq]
    refine congrArg (Eff.bind _) (funext fun b => ?_)
    cases b
    · rfl
    · rw [if_pos rfl, if_pos rfl]
      have hl : Target.iterList.filter
          (fun t => t != Target.allPackages && t != Target.workspace) =
          [Target.crates, Target.examples] := rfl
      rw [hl]
      simp only [tryForEach, Eff.bind_pure_right]



/-- C4: dispatching the composite Check subcommand All resolves one
confirmation by prompting once before decomposing, and passes the resolved
boolean as the incoming `Some` answer to every leaf subcommand dispatch, so
the user is prompted exactly once for the whole composite run. -/
theorem c4_composite_confirms_once :
    ∀ (env : Env) (t : Target) (e o : List String) (answer : Option Bool),
      (handle_command env ⟨t, e, o, CheckCommand.all⟩ answer =
        Eff.bind (warn_stage ⟨t, e, o, CheckCommand.all⟩ answer) (fun _ => Eff.bind (ask_once env
        "This will run all the checks with autofix on all members of the workspace.") (fun b => Eff.bind (handle_command env ⟨t, e, o, CheckCommand.audit⟩ (some b)) (fun _ => Eff.bind (handle_command env ⟨t, e, o, CheckCommand.compile⟩ (some b)) (fun _ => Eff.bind (handle_command env ⟨t, e, o, CheckCommand.format⟩ (some b)) (fun _ => Eff.bind (handle_command env ⟨t, e, o, CheckCommand.lint⟩ (some b)) (fun _ => handle_command env ⟨t, e, o, CheckCommand.typos⟩ (some b)))))))) ∧
      promptCount (handle_command env ⟨t, e, o, CheckCommand.all⟩ answer).trace = 1 := by
  intro env t e o answer
  have hleaf : ∀ (c : CheckCommand) (b : Bool), c ≠ CheckCommand.all →
      countE Event.isPrompt (handle_command env ⟨t, e, o, c⟩ (some b)) = 0 :=
    fun c b hcmd => handle_command_countE_some_base NonUi_isPrompt env _ b hcmd
  have heq : handle_command env ⟨t, e, o, CheckCommand.all⟩ answer =
      Eff.bind (warn_stage ⟨t, e, o, CheckCommand.all⟩ answer) (fun _ => Eff.bind (ask_once env
        "This will run all the checks with autofix on all members of the workspace.") (fun b => Eff.bind (handle_command env ⟨t, e, o, CheckCommand.audit⟩ (some b)) (fun _ => Eff.bind (handle_command env ⟨t, e, o, CheckCommand.compile⟩ (some b)) (fun _ => Eff.bind (handle_command env ⟨t, e, o, CheckCommand.format⟩ (some b)) (fun _ => Eff.bind (handle_command env ⟨t, e, o, CheckCommand.lint⟩ (some b)) (fun _ => handle_command env ⟨t, e, o, CheckCommand.typos⟩ (some b))))))) := by
    conv_lhs => rw [handle_command]
    have hl : CheckCommand.iterList.filter (fun c => c != CheckCommand.all) =
        [CheckCommand.audit, CheckCommand.compile, CheckCommand.format,
         CheckCommand.lint, CheckCommand.typos] := rfl
    rw [hl]
    simp only [tryForEach, Eff.bind_eq, Eff.pure_eq, Eff.bind_pure_right]
  have hz : ∀ b : Bool, countE Event.isPrompt (Eff.bind (handle_command env ⟨t, e, o, CheckCommand.audit⟩ (some b)) (fun _ => Eff.bind (handle_command env ⟨t, e, o, CheckCommand.compile⟩ (some b)) (fun _ => Eff.bind (handle_command env ⟨t, e, o, CheckCommand.format⟩ (some b)) (fun _ => Eff.bind (handle_command env ⟨t, e, o, CheckCommand.lint⟩ (some b)) (fun _ => handle_command env ⟨t, e, o, CheckCommand.typos⟩ (some b)))))) = 0 := by
    intro b
    refine countE_bind_zero (hleaf _ b (by decide)) (fun _ => ?_)
    refine countE_bind_zero (hleaf _ b (by decide)) (fun _ => ?_)
    refine countE_bind_zero (hleaf _ b (by decide)) (fun _ => ?_)
    refine countE_bind_zero (hleaf _ b (by decide)) (fun _ => ?_)
    exact hleaf _ b (by decide)
  refine ⟨heq, ?_⟩
  rw [promptCount_eq_countE, heq, countE_bind]
  simp only [warn_stage_result]
  rw [countE_warn_stage _ _ (fun _ => rfl), countE_bind]
  simp only [ask_once]
  rw [hz]
  rfl

/-- C1 counterexample: in the scenario command=Check, subcommand=All,
target=Workspace, exclude=[], only=["foo"], the dispatcher also runs the
Compile leaf (its `cargo check --workspace` invocation is in the trace), so
the run leaves are not exactly Audit, Format, Lint, Typos. -/
theorem c1_counterexample :
    Event.run (ProcInvocation.runProcessForWorkspace "cargo"
      ["check", "--workspace"] [] "Workspace compilation failed" none) ∈
      (handle_command envOk ⟨Target.workspace, [], ["foo"], CheckCommand.all⟩
        none).trace := by
  simp [handle_command, warn_stage, run_audit, run_compile, run_format, run_lint,
    run_typos, resolve_answer, ask_once, runProc, emit, warnE, get_workspace_members,
    tryForEach, forEachE, Eff.bind, Eff.pure, Target.iterList, CheckCommand.iterList,
    envOk]

/-- C1 (amended): for the invocation command=Check, subcommand=All,
target=Workspace, exclude=[], only=["foo"], the dispatcher emits the
filter-ignored warning, asks its single confirmation, and then runs exactly
the leaf subcommands Audit, Compile, Format, Lint, Typos in that order against
the whole workspace — stopping at the first failure, which is the sequencing
semantics of the effect's bind. -/
theorem c1_amended_scenario (env : Env) :
    handle_command env ⟨Target.workspace, [], ["foo"], CheckCommand.all⟩ none =
      Eff.bind (warnE WARN_IGNORED_EXCLUDE_AND_ONLY_ARGS) (fun _ => Eff.bind (ask_once env
        "This will run all the checks with autofix on all members of the workspace.") (fun b => Eff.bind (run_audit env (some b)) (fun _ => Eff.bind (run_compile env Target.workspace [] ["foo"] (some b)) (fun _ => Eff.bind (run_format env Target.workspace [] ["foo"] (some b)) (fun _ => Eff.bind (run_lint env Target.workspace [] ["foo"] (some b)) (fun _ => run_typos env (some b))))))) := by
  conv_lhs => rw [handle_command]
  have hl : CheckCommand.iterList.filter (fun c => c != CheckCommand.all) =
      [CheckCommand.audit, CheckCommand.compile, CheckCommand.format,
       CheckCommand.lint, CheckCommand.typos] := rfl
  rw [hl]
  simp only [tryForEach, Eff.bind_eq, Eff.pure_eq, Eff.bind_pure_right,
    handle_command_leaf_audit, handle_command_leaf_compile,
    handle_command_leaf_format, handle_command_leaf_lint,
    handle_command_leaf_typos]
  rfl

end Xtask
